import Mathlib

/-!
# Cloud_Profile: the profile service of `src/app.js`

A shallow embedding of the Express handlers of `src/app.js`
(`GET /profile/:uid`, `POST /profile`, `PUT /profile/:uid`) and of the three
helpers `getFirebaseUser`, `uploadToFirebase`, `deleteFromFirebase`.

The Firebase services are not part of the repository.  They are modelled as a
`World` (accounts, the `profiles` collection, the storage bucket) together
with an `Env` that fixes, for one request, the clock and which SDK calls
reject.  Every SDK call is appended to a trace, so that statements such as
"no repository write is performed" are statements about the trace.
-/

namespace CloudProfile

/-! ## JavaScript values and objects -/

/-- The JavaScript values that request fields and document fields range over.
Multipart requests give strings (or nothing, `undefined`); JSON requests may
also give `null`, booleans and numbers. -/
inductive JSVal where
  | undefined
  | null
  | bool (b : Bool)
  | num (n : Int)
  | str (s : String)
  deriving DecidableEq, Repr

/-- JavaScript truthiness, as used by `if (x)`, `!x` and `x || y`. -/
def JSVal.truthy : JSVal → Bool
  | .undefined => false
  | .null => false
  | .bool b => b
  | .num n => n != 0
  | .str s => s != ""

/-- The JavaScript operator `a || b`. -/
def JSVal.or (a b : JSVal) : JSVal :=
  if a.truthy then a else b

/-- A plain JavaScript object: its own properties in insertion order. -/
abbrev Doc := List (String × JSVal)

/-- Property read `obj.key`; a missing property reads as `undefined`. -/
def getField : Doc → String → JSVal
  | [], _ => .undefined
  | (k, v) :: rest, key => if k = key then v else getField rest key

/-- Property write inside an object literal: an existing property keeps its
position and takes the new value, a new property is appended. -/
def setField : Doc → String → JSVal → Doc
  | [], key, v => [(key, v)]
  | (k, x) :: rest, key, v =>
    if k = key then (k, v) :: rest else (k, x) :: setField rest key v

/-! ## Strings: `split("/").pop()` -/

/-- Splitting a character sequence at every occurrence of `sep`
(`String.prototype.split` with a one-character separator). -/
def splitChars (sep : Char) : List Char → List (List Char)
  | [] => [[]]
  | c :: cs =>
    if c = sep then [] :: splitChars sep cs
    else
      match splitChars sep cs with
      | [] => [[c]]
      | seg :: rest => (c :: seg) :: rest

/-- The JavaScript call `s.split(sep)`. -/
def jsSplit (s : String) (sep : Char) : List String :=
  (splitChars sep s.data).map String.mk

/-- The JavaScript call `arr.pop()` as a value: the last element, or
`undefined` (here `none`) on an empty array. -/
def jsPop (arr : List String) : Option String :=
  arr.getLast?

/-- Interpolation of a popped value into a template literal. -/
def interpolate : Option String → String
  | some s => s
  | none => "undefined"

/-! ## The external world -/

/-- What can be thrown inside a handler. -/
inductive JSErr where
  | authError
  | firestoreError
  | storageError
  | fsError
  | typeError
  | invalidArgument
  deriving DecidableEq, Repr

/-- The record `multer` leaves in `req.file`. -/
structure MulterFile where
  path : String
  originalname : String
  mimetype : String
  deriving DecidableEq, Repr

/-- The state of the Firebase project: the accounts of Firebase Auth, the
documents of the collection `profiles` (document id, data), the objects of
the storage bucket (object name, content type), and the bucket's name. -/
structure World where
  accounts : List String
  profiles : List (String × Doc)
  objects : List (String × String)
  bucketName : String
  deriving DecidableEq, Repr

/-- What is fixed from outside during one request: the value of `Date.now()`
and, for each kind of external call, whether it rejects. -/
structure Env where
  now : Nat
  authRejects : Bool
  docGetRejects : Bool
  docSetRejects : Bool
  uploadRejects : Bool
  deleteRejects : Bool
  unlinkThrows : Bool
  deriving DecidableEq, Repr

/-- The external calls a handler makes, in the order it makes them. -/
inductive Call where
  | authGetUser (uid : JSVal)
  | docGet (id : String)
  | docSet (id : String) (data : Doc)
  | bucketUpload (path : String) (destination : String) (contentType : String)
  | fileDelete (name : String)
  | unlinkSync (path : String)
  deriving DecidableEq, Repr

/-- The state threaded through a handler: the world and the calls so far. -/
structure St where
  world : World
  trace : List Call
  deriving DecidableEq, Repr

/-- Handler code: it may throw, and the state survives a throw. -/
abbrev Eff := ExceptT JSErr (StateM St)

/-- Running handler code from a state: the value or the thrown error, and the
state reached. -/
def exec {α : Type} (m : Eff α) (s : St) : Except JSErr α × St :=
  m.run.run s

/-- The state after one more recorded call. -/
def St.log (s : St) (c : Call) : St :=
  { s with trace := s.trace ++ [c] }

/-- Record one external call. -/
def call (c : Call) : Eff Unit :=
  modify fun s => s.log c

/-- Lookup of a document by id. -/
def findDoc : List (String × Doc) → String → Option Doc
  | [], _ => none
  | (k, d) :: rest, id => if k = id then some d else findDoc rest id

/-- Full overwrite of the document at `id`, or a new document. -/
def putDoc : List (String × Doc) → String → Doc → List (String × Doc)
  | [], id, d => [(id, d)]
  | (k, x) :: rest, id, d =>
    if k = id then (k, d) :: rest else (k, x) :: putDoc rest id d

/-- The account record `auth().getUser` resolves to. -/
structure UserRecord where
  uid : String
  deriving DecidableEq, Repr

/-- The call `firebaseAdmin.auth().getUser(uid)`: resolves for the string id
of an existing account, rejects otherwise. -/
def authGetUser (env : Env) (uid : JSVal) : Eff UserRecord := do
  call (.authGetUser uid)
  let s ← get
  match uid with
  | .str u =>
    if !env.authRejects && s.world.accounts.contains u then pure ⟨u⟩
    else throw .authError
  | _ => throw .authError

/-- The call `db.collection("profiles").doc(id).get()`; `none` is a snapshot
with `exists = false`. -/
def docGet (env : Env) (id : String) : Eff (Option Doc) := do
  call (.docGet id)
  if env.docGetRejects then throw .firestoreError
  let s ← get
  pure (findDoc s.world.profiles id)

/-- Whether some property of the object has the value `undefined`. -/
def hasUndefined (data : Doc) : Bool :=
  data.any fun p => decide (p.2 = .undefined)

/-- The call `db.collection("profiles").doc(id).set(data)`.  Firestore refuses
data with an `undefined` field value (the client is created without
`ignoreUndefinedProperties`), before anything is written. -/
def docSet (env : Env) (id : String) (data : Doc) : Eff Unit := do
  call (.docSet id data)
  if hasUndefined data then throw .invalidArgument
  if env.docSetRejects then throw .firestoreError
  modify fun s =>
    { s with world := { s.world with profiles := putDoc s.world.profiles id data } }

/-- The call `bucket.upload(path, { destination, metadata })`; it resolves to
the uploaded file, whose name is the destination. -/
def bucketUpload (env : Env) (path destination contentType : String) : Eff String := do
  call (.bucketUpload path destination contentType)
  if env.uploadRejects then throw .storageError
  modify fun s =>
    { s with world := { s.world with
        objects := (destination, contentType) :: s.world.objects.filter (fun o => o.1 != destination) } }
  pure destination

/-- The call `bucket.file(name).delete()`. -/
def fileDelete (env : Env) (name : String) : Eff Unit := do
  call (.fileDelete name)
  if env.deleteRejects then throw .storageError
  modify fun s =>
    { s with world := { s.world with
        objects := s.world.objects.filter (fun o => o.1 != name) } }

/-- The call `fs.unlinkSync(path)`. -/
def unlinkSync (env : Env) (path : String) : Eff Unit := do
  call (.unlinkSync path)
  if env.unlinkThrows then throw .fsError

/-! ## The helpers of `app.js` -/

/-- `getFirebaseUser(uid)`: the account, or `null` when `getUser` throws. -/
def getFirebaseUser (env : Env) (uid : JSVal) : Eff (Option UserRecord) :=
  tryCatch (do
    let userRecord ← authGetUser env uid
    pure (some userRecord))
    (fun _ => pure none)

/-- The object name `profile-pictures/${Date.now()}-${file.originalname}`. -/
def uploadDestination (now : Nat) (originalname : String) : String :=
  "profile-pictures/" ++ toString now ++ "-" ++ originalname

/-- The locator `https://storage.googleapis.com/${bucket.name}/${uploadedFile.name}`. -/
def publicUrl (bucketName uploadedName : String) : String :=
  "https://storage.googleapis.com/" ++ bucketName ++ "/" ++ uploadedName

/-- `uploadToFirebase(file)`. -/
def uploadToFirebase (env : Env) (file : MulterFile) : Eff String := do
  let destination := uploadDestination env.now file.originalname
  let uploadedName ← bucketUpload env file.path destination file.mimetype
  unlinkSync env file.path
  let s ← get
  pure (publicUrl s.world.bucketName uploadedName)

/-- `deleteFromFirebase(filename)`: a rejection of `delete` is logged and
swallowed. -/
def deleteFromFirebase (env : Env) (filename : String) : Eff Unit :=
  tryCatch (fileDelete env filename) (fun _ => pure ())

/-- The key Update removes for an old locator:
`profile-pictures/${profilePicture.split("/").pop()}`. -/
def oldObjectName (profilePicture : String) : String :=
  "profile-pictures/" ++ interpolate (jsPop (jsSplit profilePicture '/'))

/-! ## Requests and responses -/

/-- The JSON body handed to `res.json`. -/
inductive Body where
  | message (message : String)
  | data (doc : Doc)
  | withProfile (message : String) (profile : Doc)
  | failure (message : String) (error : JSErr)
  deriving DecidableEq, Repr

/-- An HTTP response: status code and body. -/
structure Response where
  status : Nat
  body : Body
  deriving DecidableEq, Repr

/-- A request to `POST /profile`. -/
structure PostRequest where
  body : Doc
  file : Option MulterFile
  deriving DecidableEq, Repr

/-- A request to `PUT /profile/:uid`. -/
structure PutRequest where
  uid : String
  body : Doc
  file : Option MulterFile
  deriving DecidableEq, Repr

/-- The argument of `.doc(uid)` must be a string. -/
def docId : JSVal → Eff String
  | .str s => pure s
  | _ => throw .typeError

/-- Running a handler body under its `try { ... } catch (error) { 500 }`. -/
def handle (failureMessage : String) (body : Eff Response) (s : St) : Response × St :=
  match exec body s with
  | (.ok r, s') => (r, s')
  | (.error e, s') => (⟨500, .failure failureMessage e⟩, s')

/-! ## The three endpoints -/

/-- The body of `app.get("/profile/:uid")`. -/
def getProfileBody (env : Env) (requestedUid : String) : Eff Response := do
  let user ← getFirebaseUser env (.str requestedUid)
  if user.isNone then
    return ⟨404, .message "User not found"⟩
  let doc ← docGet env requestedUid
  match doc with
  | none => return ⟨404, .message "Profile not found"⟩
  | some data => return ⟨200, .data data⟩

/-- The endpoint `GET /profile/:uid`. -/
def getProfile (env : Env) (requestedUid : String) : St → Response × St :=
  handle "Error fetching profile" (getProfileBody env requestedUid)

/-- The body of `app.post("/profile")`. -/
def postProfileBody (env : Env) (req : PostRequest) : Eff Response := do
  let uid := getField req.body "uid"
  let name := getField req.body "name"
  let gender := getField req.body "gender"
  let lifestyle := getField req.body "lifestyle"
  let user ← getFirebaseUser env uid
  if user.isNone then
    return ⟨403, .message "Unauthorized access"⟩
  let mut profilePicture := JSVal.null
  if let some file := req.file then
    profilePicture := .str (← uploadToFirebase env file)
  let profile : Doc :=
    [("uid", uid), ("name", name), ("gender", gender), ("lifestyle", lifestyle),
     ("profilePicture", profilePicture)]
  docSet env (← docId uid) profile
  return ⟨201, .withProfile "Profile created successfully" profile⟩

/-- The endpoint `POST /profile`. -/
def postProfile (env : Env) (req : PostRequest) : St → Response × St :=
  handle "Error creating profile" (postProfileBody env req)

/-- The removal of the old picture inside Update: nothing for a falsy
locator, a `TypeError` for a truthy value without `split`. -/
def removeOldPicture (env : Env) (profilePicture : JSVal) : Eff Unit :=
  if profilePicture.truthy then
    match profilePicture with
    | .str url => deleteFromFirebase env (oldObjectName url)
    | _ => throw .typeError
  else pure ()

/-- The body of `app.put("/profile/:uid")`. -/
def putProfileBody (env : Env) (req : PutRequest) : Eff Response := do
  let requestedUid := req.uid
  let user ← getFirebaseUser env (.str requestedUid)
  if user.isNone then
    return ⟨403, .message "Unauthorized access"⟩
  let doc ← docGet env requestedUid
  match doc with
  | none => return ⟨404, .message "Profile not found"⟩
  | some currentProfile =>
    let name := getField req.body "name"
    let gender := getField req.body "gender"
    let lifestyle := getField req.body "lifestyle"
    let mut profilePicture := getField currentProfile "profilePicture"
    if let some file := req.file then
      removeOldPicture env profilePicture
      profilePicture := .str (← uploadToFirebase env file)
    let updatedProfile : Doc :=
      setField (setField (setField (setField currentProfile
        "name" (name.or (getField currentProfile "name")))
        "gender" (gender.or (getField currentProfile "gender")))
        "lifestyle" (lifestyle.or (getField currentProfile "lifestyle")))
        "profilePicture" profilePicture
    docSet env requestedUid updatedProfile
    return ⟨200, .withProfile "Profile updated successfully" updatedProfile⟩

/-- The endpoint `PUT /profile/:uid`. -/
def putProfile (env : Env) (req : PutRequest) : St → Response × St :=
  handle "Error updating profile" (putProfileBody env req)

/-! ## Vocabulary of the statements -/

/-- A call to the media store: an upload or a delete. -/
def Call.isMedia : Call → Bool
  | .bucketUpload _ _ _ => true
  | .fileDelete _ => true
  | _ => false

/-- A call to the repository: a read or a write. -/
def Call.isRepo : Call → Bool
  | .docGet _ => true
  | .docSet _ _ => true
  | _ => false

/-- A write to the repository. -/
def Call.isWrite : Call → Bool
  | .docSet _ _ => true
  | _ => false

/-- The identity check alone, on a state: what `getFirebaseUser` yields. -/
def identityCheck (env : Env) (uid : JSVal) (s : St) : Option UserRecord :=
  match exec (getFirebaseUser env uid) s with
  | (.ok u, _) => u
  | (.error _, _) => none

/-- The state after `deleteFromFirebase`: the call is recorded, and the object
is gone when the delete did not reject. -/
def afterDelete (env : Env) (name : String) (s : St) : St :=
  { world := { s.world with
      objects := if env.deleteRejects then s.world.objects
                 else s.world.objects.filter (fun o => o.1 != name) },
    trace := s.trace ++ [.fileDelete name] }

/-- The state after a completed `bucket.upload` followed by `unlinkSync`. -/
def afterUpload (env : Env) (file : MulterFile) (s : St) : St :=
  { world := { s.world with
      objects := (uploadDestination env.now file.originalname, file.mimetype) ::
        s.world.objects.filter (fun o => o.1 != uploadDestination env.now file.originalname) },
    trace := s.trace ++
      [.bucketUpload file.path (uploadDestination env.now file.originalname) file.mimetype,
       .unlinkSync file.path] }

/-- The record Create builds from the request body and a media locator. -/
def newProfile (body : Doc) (profilePicture : JSVal) : Doc :=
  [("uid", getField body "uid"), ("name", getField body "name"),
   ("gender", getField body "gender"), ("lifestyle", getField body "lifestyle"),
   ("profilePicture", profilePicture)]

/-- The error with which the write of `data` fails, or `none` when the write
completes. -/
def setError (env : Env) (data : Doc) : Option JSErr :=
  if hasUndefined data then some .invalidArgument
  else if env.docSetRejects then some .firestoreError
  else none

/-- The end of Create: the write of the record and the 201 response. -/
def finishCreate (env : Env) (u : String) (profile : Doc) (s : St) : Response × St :=
  match setError env profile with
  | some e => (⟨500, .failure "Error creating profile" e⟩, s.log (.docSet u profile))
  | none =>
    (⟨201, .withProfile "Profile created successfully" profile⟩,
      { world := { s.world with profiles := putDoc s.world.profiles u profile },
        trace := s.trace ++ [.docSet u profile] })

/-- The record Update builds: the existing record with the merged fields and
the media locator written over it. -/
def mergedProfile (body : Doc) (currentProfile : Doc) (profilePicture : JSVal) : Doc :=
  setField (setField (setField (setField currentProfile
    "name" ((getField body "name").or (getField currentProfile "name")))
    "gender" ((getField body "gender").or (getField currentProfile "gender")))
    "lifestyle" ((getField body "lifestyle").or (getField currentProfile "lifestyle")))
    "profilePicture" profilePicture

/-- The end of Update: the write of the record and the 200 response. -/
def finishUpdate (env : Env) (uid : String) (profile : Doc) (s : St) : Response × St :=
  match setError env profile with
  | some e => (⟨500, .failure "Error updating profile" e⟩, s.log (.docSet uid profile))
  | none =>
    (⟨200, .withProfile "Profile updated successfully" profile⟩,
      { world := { s.world with profiles := putDoc s.world.profiles uid profile },
        trace := s.trace ++ [.docSet uid profile] })

/-- The state in which Update has checked the identity and read the record. -/
def afterRead (uid : String) (s : St) : St :=
  (s.log (.authGetUser (.str uid))).log (.docGet uid)

/-- A fresh request on world `w`: nothing has been called yet. -/
def start (w : World) : St := ⟨w, []⟩

/-- An environment in which no external call rejects. -/
def calm (now : Nat) : Env := ⟨now, false, false, false, false, false, false⟩

/-- What the repository yields for `uid` at the start of a request: the thrown
error, or the record, or `none` for a snapshot that does not exist. -/
def storedRecord (env : Env) (w : World) (uid : String) : Except JSErr (Option Doc) :=
  (exec (docGet env uid) (start w)).1

/-- A world with two accounts: `u1`, with a profile that has a picture and the
object of that picture in the bucket, and `u2`, without a profile. -/
def sampleWorld : World :=
  { accounts := ["u1", "u2"],
    profiles := [("u1", [("uid", .str "u1"), ("name", .str "A"), ("gender", .str "M"),
      ("lifestyle", .str "L"),
      ("profilePicture", .str "https://storage.googleapis.com/b/profile-pictures/5-a.png")])],
    objects := [("profile-pictures/5-a.png", "image/png")],
    bucketName := "b" }

/-- A staged upload. -/
def sampleFile : MulterFile := ⟨"temp/f1", "c.png", "image/png"⟩

/-- The profile of `u1` in `sampleWorld`. -/
def sampleRecord : Doc :=
  [("uid", .str "u1"), ("name", .str "A"), ("gender", .str "M"), ("lifestyle", .str "L"),
   ("profilePicture", .str "https://storage.googleapis.com/b/profile-pictures/5-a.png")]

/-- An environment in which only `bucket.upload` rejects. -/
def uploadDown (now : Nat) : Env := { calm now with uploadRejects := true }

/-- Every record of the repository is stored under the key equal to its own
`uid` field. -/
def keyedByUid (w : World) : Bool :=
  w.profiles.all fun p => decide (getField p.2 "uid" = .str p.1)

/-- The data model of a media locator: null, or a non-empty string. -/
def locatorOk : JSVal → Bool
  | .null => true
  | .str s => s != ""
  | _ => false

/-- Every record of the repository has a media locator that follows the data
model. -/
def locatorsFollowModel (w : World) : Bool :=
  w.profiles.all fun p => locatorOk (getField p.2 "profilePicture")

/-- An environment in which only the repository write is rejected. -/
def writeDown (now : Nat) : Env := { calm now with docSetRejects := true }

/-- A project with two accounts, an empty repository and an empty bucket. -/
def freshWorld : World :=
  { accounts := ["u1", "u2"], profiles := [], objects := [], bucketName := "b" }

/-! ## Running handler code -/

theorem exec_pure {α : Type} (a : α) (s : St) : exec (pure a : Eff α) s = (.ok a, s) := rfl

theorem exec_throw {α : Type} (e : JSErr) (s : St) :
    exec (throw e : Eff α) s = (.error e, s) := rfl

theorem exec_bind {α β : Type} (x : Eff α) (f : α → Eff β) (s : St) :
    exec (x >>= f) s =
      match exec x s with
      | (.ok a, s') => exec (f a) s'
      | (.error e, s') => (.error e, s') := by
  have key : exec (x >>= f) s =
      (match (exec x s).1 with
        | .ok a => exec (f a) (exec x s).2
        | .error e => (.error e, (exec x s).2)) := by
    cases h : (exec x s).1 <;>
      (unfold exec at *; simp only [ExceptT.run_bind, StateT.run_bind]; simp [h])
  rw [key]
  rcases exec x s with ⟨r, s'⟩
  cases r <;> rfl

theorem exec_tryCatch {α : Type} (x : Eff α) (f : JSErr → Eff α) (s : St) :
    exec (tryCatch x f) s =
      match exec x s with
      | (.ok a, s') => (.ok a, s')
      | (.error e, s') => exec (f e) s' := by
  have key : exec (tryCatch x f) s =
      (match (exec x s).1 with
        | .ok a => (.ok a, (exec x s).2)
        | .error e => exec (f e) (exec x s).2) := by
    cases h : (exec x s).1 <;>
      (unfold exec at *
       simp only [tryCatch, tryCatchThe, MonadExceptOf.tryCatch, ExceptT.tryCatch,
         ExceptT.run_mk, StateT.run_bind]
       change (StateT.run x s).1 = _ at h
       simp [h]
       try rfl)
  rw [key]
  rcases exec x s with ⟨r, s'⟩
  cases r <;> rfl

theorem exec_get (s : St) : exec (get : Eff St) s = (.ok s, s) := rfl

theorem exec_call (c : Call) (s : St) : exec (call c) s = (.ok (), s.log c) := rfl

theorem exec_authGetUser (env : Env) (uid : JSVal) (s : St) :
    exec (authGetUser env uid) s =
      (match uid with
        | .str u =>
          if !env.authRejects && s.world.accounts.contains u then .ok ⟨u⟩ else .error .authError
        | _ => .error .authError, s.log (.authGetUser uid)) := by
  unfold authGetUser
  simp only [exec_bind, exec_call, exec_get]
  cases uid <;> simp only [exec_throw]
  rename_i u
  have hw : (s.log (.authGetUser (.str u))).world = s.world := rfl
  rw [hw]
  by_cases h : (!env.authRejects && s.world.accounts.contains u) = true
  · rw [if_pos h, if_pos h, exec_pure]
  · rw [if_neg h, if_neg h, exec_throw]

theorem exec_getFirebaseUser (env : Env) (uid : JSVal) (s : St) :
    exec (getFirebaseUser env uid) s =
      (.ok (identityCheck env uid s), s.log (.authGetUser uid)) := by
  unfold identityCheck getFirebaseUser
  simp only [exec_tryCatch, exec_bind, exec_authGetUser]
  cases uid <;> simp only [exec_pure]
  split_ifs <;> rfl

theorem exec_docGet (env : Env) (id : String) (s : St) :
    exec (docGet env id) s =
      if env.docGetRejects then (.error .firestoreError, s.log (.docGet id))
      else (.ok (findDoc s.world.profiles id), s.log (.docGet id)) := by
  rcases env with ⟨now, a, b, c, d, e, f⟩
  cases b <;> rfl

theorem exec_docSet (env : Env) (id : String) (data : Doc) (s : St) :
    exec (docSet env id data) s =
      match setError env data with
      | some e => (.error e, s.log (.docSet id data))
      | none =>
        (.ok (), { world := { s.world with profiles := putDoc s.world.profiles id data },
                   trace := s.trace ++ [.docSet id data] }) := by
  unfold docSet setError
  rw [exec_bind, exec_call]
  rcases env with ⟨now, a, b, c, d, e, f⟩
  cases hasUndefined data <;> cases c <;> rfl

theorem exec_docId (s : St) (u : String) : exec (docId (.str u)) s = (.ok u, s) := rfl


theorem exec_bucketUpload (env : Env) (path destination contentType : String) (s : St) :
    exec (bucketUpload env path destination contentType) s =
      if env.uploadRejects then
        (.error .storageError, s.log (.bucketUpload path destination contentType))
      else
        (.ok destination,
          { world := { s.world with
              objects := (destination, contentType) ::
                s.world.objects.filter (fun o => o.1 != destination) },
            trace := s.trace ++ [.bucketUpload path destination contentType] }) := by
  rcases env with ⟨now, a, b, c, d, e, f⟩
  cases d <;> rfl

theorem exec_fileDelete (env : Env) (name : String) (s : St) :
    exec (fileDelete env name) s =
      if env.deleteRejects then (.error .storageError, s.log (.fileDelete name))
      else
        (.ok (),
          { world := { s.world with objects := s.world.objects.filter (fun o => o.1 != name) },
            trace := s.trace ++ [.fileDelete name] }) := by
  rcases env with ⟨now, a, b, c, d, e, f⟩
  cases e <;> rfl

theorem exec_unlinkSync (env : Env) (path : String) (s : St) :
    exec (unlinkSync env path) s =
      (if env.unlinkThrows then .error .fsError else .ok (), s.log (.unlinkSync path)) := by
  rcases env with ⟨now, a, b, c, d, e, f⟩
  cases f <;> rfl

theorem exec_deleteFromFirebase (env : Env) (name : String) (s : St) :
    exec (deleteFromFirebase env name) s = (.ok (), afterDelete env name s) := by
  unfold deleteFromFirebase afterDelete
  rw [exec_tryCatch, exec_fileDelete]
  cases env.deleteRejects <;> rfl

theorem exec_uploadToFirebase (env : Env) (file : MulterFile) (s : St) :
    exec (uploadToFirebase env file) s =
      if env.uploadRejects then
        (.error .storageError,
          s.log (.bucketUpload file.path (uploadDestination env.now file.originalname)
            file.mimetype))
      else if env.unlinkThrows then (.error .fsError, afterUpload env file s)
      else
        (.ok (publicUrl s.world.bucketName (uploadDestination env.now file.originalname)),
          afterUpload env file s) := by
  unfold uploadToFirebase afterUpload
  simp only [exec_bind, exec_bucketUpload, exec_unlinkSync, exec_get, exec_pure]
  cases env.uploadRejects <;> cases env.unlinkThrows <;> simp [St.log]

theorem exec_removeOldPicture (env : Env) (profilePicture : JSVal) (s : St) :
    exec (removeOldPicture env profilePicture) s =
      if profilePicture.truthy then
        match profilePicture with
        | .str url => (.ok (), afterDelete env (oldObjectName url) s)
        | _ => (.error .typeError, s)
      else (.ok (), s) := by
  unfold removeOldPicture
  cases profilePicture <;> split_ifs <;> first | rfl | exact exec_deleteFromFirebase _ _ _

theorem identityCheck_eq (env : Env) (uid : JSVal) (s : St) :
    identityCheck env uid s =
      match uid with
      | .str u => if !env.authRejects && s.world.accounts.contains u then some ⟨u⟩ else none
      | _ => none := by
  unfold identityCheck getFirebaseUser
  simp only [exec_tryCatch, exec_bind, exec_authGetUser]
  cases uid <;> simp only [exec_pure]
  split_ifs <;> rfl

theorem identityCheck_accepts {env : Env} {uid : JSVal} {s : St}
    (h : identityCheck env uid s ≠ none) : ∃ u, uid = .str u := by
  rw [identityCheck_eq] at h
  cases uid <;> simp at h
  exact ⟨_, rfl⟩

/-! ## The endpoints, branch by branch -/

theorem St.log_world (s : St) (c : Call) : (s.log c).world = s.world := rfl

theorem St.log_trace (s : St) (c : Call) : (s.log c).trace = s.trace ++ [c] := rfl

theorem getProfile_eq (env : Env) (uid : String) (s : St) :
    getProfile env uid s =
      match identityCheck env (.str uid) s with
      | none => (⟨404, .message "User not found"⟩, s.log (.authGetUser (.str uid)))
      | some _ =>
        if env.docGetRejects then
          (⟨500, .failure "Error fetching profile" .firestoreError⟩,
            (s.log (.authGetUser (.str uid))).log (.docGet uid))
        else
          match findDoc s.world.profiles uid with
          | none =>
            (⟨404, .message "Profile not found"⟩,
              (s.log (.authGetUser (.str uid))).log (.docGet uid))
          | some data =>
            (⟨200, .data data⟩, (s.log (.authGetUser (.str uid))).log (.docGet uid)) := by
  unfold getProfile handle getProfileBody
  simp only [exec_bind, exec_getFirebaseUser]
  cases identityCheck env (.str uid) s with
  | none => simp [exec_pure]
  | some u =>
    simp only [Option.isNone_some, Bool.false_eq_true, if_false, exec_bind, exec_docGet,
      exec_pure, St.log_world]
    cases env.docGetRejects with
    | true => simp
    | false => cases findDoc s.world.profiles uid <;> simp [exec_pure]

theorem postProfile_eq (env : Env) (req : PostRequest) (s : St) :
    postProfile env req s =
      match identityCheck env (getField req.body "uid") s, getField req.body "uid" with
      | some _, .str u =>
        match req.file with
        | none =>
          finishCreate env u (newProfile req.body .null)
            (s.log (.authGetUser (getField req.body "uid")))
        | some file =>
          if env.uploadRejects then
            (⟨500, .failure "Error creating profile" .storageError⟩,
              (s.log (.authGetUser (getField req.body "uid"))).log
                (.bucketUpload file.path (uploadDestination env.now file.originalname)
                  file.mimetype))
          else if env.unlinkThrows then
            (⟨500, .failure "Error creating profile" .fsError⟩,
              afterUpload env file (s.log (.authGetUser (getField req.body "uid"))))
          else
            finishCreate env u
              (newProfile req.body
                (.str (publicUrl s.world.bucketName
                  (uploadDestination env.now file.originalname))))
              (afterUpload env file (s.log (.authGetUser (getField req.body "uid"))))
      | _, _ =>
        (⟨403, .message "Unauthorized access"⟩, s.log (.authGetUser (getField req.body "uid"))) := by
  unfold postProfile handle postProfileBody
  simp only [exec_bind, exec_getFirebaseUser]
  cases hid : identityCheck env (getField req.body "uid") s with
  | none => simp [exec_pure]
  | some usr =>
    obtain ⟨u, hu⟩ := identityCheck_accepts (by rw [hid]; simp)
    rw [hu] at hid ⊢
    rcases req with ⟨body, file⟩
    cases file with
    | none =>
      simp only [Option.isNone_some, Bool.false_eq_true, if_false, exec_bind, exec_pure,
        exec_docId, exec_docSet, finishCreate, newProfile]
      simp at hu
      simp only [hu]
      cases setError env _ <;> simp
    | some file =>
      simp only [Option.isNone_some, Bool.false_eq_true, if_false, exec_bind, exec_pure,
        exec_docId, exec_docSet, exec_uploadToFirebase, finishCreate, newProfile]
      simp at hu
      simp only [hu]
      cases env.uploadRejects <;> cases env.unlinkThrows <;>
        simp [St.log, afterUpload]
      cases setError env _ <;> simp

theorem putProfile_eq (env : Env) (req : PutRequest) (s : St) :
    putProfile env req s =
      match identityCheck env (.str req.uid) s with
      | none => (⟨403, .message "Unauthorized access"⟩, s.log (.authGetUser (.str req.uid)))
      | some _ =>
        if env.docGetRejects then
          (⟨500, .failure "Error updating profile" .firestoreError⟩, afterRead req.uid s)
        else
          match findDoc s.world.profiles req.uid with
          | none => (⟨404, .message "Profile not found"⟩, afterRead req.uid s)
          | some cur =>
            match req.file with
            | none =>
              finishUpdate env req.uid
                (mergedProfile req.body cur (getField cur "profilePicture"))
                (afterRead req.uid s)
            | some file =>
              match exec (removeOldPicture env (getField cur "profilePicture"))
                  (afterRead req.uid s) with
              | (.error e, s₃) => (⟨500, .failure "Error updating profile" e⟩, s₃)
              | (.ok _, s₃) =>
                if env.uploadRejects then
                  (⟨500, .failure "Error updating profile" .storageError⟩,
                    s₃.log (.bucketUpload file.path
                      (uploadDestination env.now file.originalname) file.mimetype))
                else if env.unlinkThrows then
                  (⟨500, .failure "Error updating profile" .fsError⟩, afterUpload env file s₃)
                else
                  finishUpdate env req.uid
                    (mergedProfile req.body cur
                      (.str (publicUrl s₃.world.bucketName
                        (uploadDestination env.now file.originalname))))
                    (afterUpload env file s₃) := by
  unfold putProfile handle putProfileBody
  simp only [exec_bind, exec_getFirebaseUser]
  cases hid : identityCheck env (.str req.uid) s with
  | none => simp [exec_pure]
  | some usr =>
    simp only [Option.isNone_some, Bool.false_eq_true, if_false, exec_bind, exec_docGet,
      exec_pure, St.log_world, afterRead]
    cases env.docGetRejects with
    | true => simp
    | false =>
      simp only [Bool.false_eq_true, if_false]
      cases findDoc s.world.profiles req.uid with
      | none => simp [exec_pure]
      | some cur =>
        rcases req with ⟨uid, body, file⟩
        cases file with
        | none =>
          simp only [exec_bind, exec_pure, exec_docSet, finishUpdate, mergedProfile]
          cases setError env _ <;> simp [St.log]
        | some file =>
          simp only [exec_bind, exec_pure, exec_docSet, exec_uploadToFirebase, finishUpdate,
            mergedProfile]
          rcases exec (removeOldPicture env (getField cur "profilePicture"))
            ((s.log (.authGetUser (.str uid))).log (.docGet uid)) with ⟨r, s₃⟩
          cases r with
          | error e => simp
          | ok u =>
            cases env.uploadRejects <;> cases env.unlinkThrows <;>
              simp [St.log, afterUpload]
            cases setError env _ <;> simp

theorem storedRecord_eq (env : Env) (w : World) (uid : String) :
    storedRecord env w uid =
      if env.docGetRejects then .error .firestoreError else .ok (findDoc w.profiles uid) := by
  unfold storedRecord
  rw [exec_docGet]
  cases env.docGetRejects <;> rfl

/-- C1: when the identity check yields no account for the identifier (which is
the case in particular whenever the provider call throws), Create and Update
both answer 403, make no repository call and no media-store call, and leave the
world (repository and bucket) as it was, whatever the fields and the file. -/
theorem unknown_identifier_is_forbidden (env : Env) (w : World) (body : Doc) (uid : String)
    (fields : Doc) (createFile updateFile : Option MulterFile) :
    (env.authRejects = true →
      identityCheck env (getField body "uid") (start w) = none ∧
      identityCheck env (.str uid) (start w) = none) ∧
    (identityCheck env (getField body "uid") (start w) = none →
      (postProfile env ⟨body, createFile⟩ (start w)).1 = ⟨403, .message "Unauthorized access"⟩ ∧
      (postProfile env ⟨body, createFile⟩ (start w)).2.world = w ∧
      ∀ c ∈ (postProfile env ⟨body, createFile⟩ (start w)).2.trace,
        c.isRepo = false ∧ c.isMedia = false) ∧
    (identityCheck env (.str uid) (start w) = none →
      (putProfile env ⟨uid, fields, updateFile⟩ (start w)).1 =
        ⟨403, .message "Unauthorized access"⟩ ∧
      (putProfile env ⟨uid, fields, updateFile⟩ (start w)).2.world = w ∧
      ∀ c ∈ (putProfile env ⟨uid, fields, updateFile⟩ (start w)).2.trace,
        c.isRepo = false ∧ c.isMedia = false) := by
  refine ⟨fun hrej => ?_, fun h => ?_, fun h => ?_⟩
  · rw [identityCheck_eq, identityCheck_eq]
    constructor
    · cases getField body "uid" <;> simp [hrej]
    · simp [hrej]
  · have hrun : postProfile env ⟨body, createFile⟩ (start w) =
        (⟨403, .message "Unauthorized access"⟩,
          (start w).log (.authGetUser (getField body "uid"))) := by
      rw [postProfile_eq]
      simp only [h]
    rw [hrun]
    refine ⟨rfl, rfl, fun c hc => ?_⟩
    have hc' : c = .authGetUser (getField body "uid") := by simpa [start, St.log] using hc
    subst hc'
    exact ⟨rfl, rfl⟩
  · have hrun : putProfile env ⟨uid, fields, updateFile⟩ (start w) =
        (⟨403, .message "Unauthorized access"⟩, (start w).log (.authGetUser (.str uid))) := by
      rw [putProfile_eq]
      simp only [h]
    rw [hrun]
    refine ⟨rfl, rfl, fun c hc => ?_⟩
    have hc' : c = .authGetUser (.str uid) := by simpa [start, St.log] using hc
    subst hc'
    exact ⟨rfl, rfl⟩

/-- C1 at concrete requests: the account `ghost` does not exist. -/
theorem unknown_identifier_is_forbidden_witness :
    identityCheck (calm 9) (getField [("uid", JSVal.str "ghost")] "uid") (start sampleWorld) =
      none ∧
    identityCheck (calm 9) (.str "ghost") (start sampleWorld) = none ∧
    (postProfile (calm 9) ⟨[("uid", .str "ghost")], some sampleFile⟩
        (start sampleWorld)).1 = ⟨403, .message "Unauthorized access"⟩ ∧
    (putProfile (calm 9) ⟨"ghost", [("name", .str "N")], some sampleFile⟩
        (start sampleWorld)).1 = ⟨403, .message "Unauthorized access"⟩ ∧
    (putProfile (calm 9) ⟨"ghost", [("name", .str "N")], some sampleFile⟩
        (start sampleWorld)).2.world = sampleWorld :=
  ⟨by decide, by decide,
   ((unknown_identifier_is_forbidden (calm 9) sampleWorld [("uid", .str "ghost")] "ghost"
      [("name", .str "N")] (some sampleFile) (some sampleFile)).2.1 (by decide)).1,
   ((unknown_identifier_is_forbidden (calm 9) sampleWorld [("uid", .str "ghost")] "ghost"
      [("name", .str "N")] (some sampleFile) (some sampleFile)).2.2 (by decide)).1,
   ((unknown_identifier_is_forbidden (calm 9) sampleWorld [("uid", .str "ghost")] "ghost"
      [("name", .str "N")] (some sampleFile) (some sampleFile)).2.2 (by decide)).2.1⟩

/-- C2: when the identity check accepts the identifier and the repository
yields no record for it, Read answers 404 and Update answers 404, whatever the
fields and the file; Update then makes no media-store call and no repository
write, and leaves the world as it was. -/
theorem missing_profile_is_not_found (env : Env) (w : World) (uid : String) (fields : Doc)
    (file : Option MulterFile)
    (hid : identityCheck env (.str uid) (start w) ≠ none)
    (habsent : storedRecord env w uid = .ok none) :
    (getProfile env uid (start w)).1 = ⟨404, .message "Profile not found"⟩ ∧
    (putProfile env ⟨uid, fields, file⟩ (start w)).1 = ⟨404, .message "Profile not found"⟩ ∧
    (putProfile env ⟨uid, fields, file⟩ (start w)).2.world = w ∧
    ∀ c ∈ (putProfile env ⟨uid, fields, file⟩ (start w)).2.trace,
      c.isMedia = false ∧ c.isWrite = false := by
  rw [storedRecord_eq] at habsent
  have hget : env.docGetRejects = false := by
    cases h : env.docGetRejects
    · rfl
    · rw [h] at habsent; simp at habsent
  rw [hget] at habsent
  have hnone : findDoc (start w).world.profiles uid = none := by simpa using habsent
  obtain ⟨usr, husr⟩ := Option.ne_none_iff_exists'.mp hid
  have hread : getProfile env uid (start w) =
      (⟨404, .message "Profile not found"⟩, afterRead uid (start w)) := by
    rw [getProfile_eq]
    simp only [husr, hget, hnone, Bool.false_eq_true, if_false, afterRead]
  have hupd : putProfile env ⟨uid, fields, file⟩ (start w) =
      (⟨404, .message "Profile not found"⟩, afterRead uid (start w)) := by
    rw [putProfile_eq]
    simp only [husr, hget, hnone, Bool.false_eq_true, if_false]
  rw [hread, hupd]
  refine ⟨rfl, rfl, rfl, fun c hc => ?_⟩
  have hc' : c = .authGetUser (.str uid) ∨ c = .docGet uid := by
    simpa [start, St.log, afterRead] using hc
  rcases hc' with rfl | rfl <;> exact ⟨rfl, rfl⟩

/-- C2 at a concrete request: `u2` has an account and no profile. -/
theorem missing_profile_is_not_found_witness :
    identityCheck (calm 9) (.str "u2") (start sampleWorld) ≠ none ∧
    storedRecord (calm 9) sampleWorld "u2" = .ok none ∧
    (getProfile (calm 9) "u2" (start sampleWorld)).1 = ⟨404, .message "Profile not found"⟩ :=
  ⟨by decide, rfl,
   (missing_profile_is_not_found (calm 9) sampleWorld "u2" [] (some sampleFile)
      (by decide) rfl).1⟩

/-! ## Objects and the document collection; the merge of Update -/

theorem getField_setField_same (d : Doc) (k : String) (v : JSVal) :
    getField (setField d k v) k = v := by
  induction d with
  | nil => simp [setField, getField]
  | cons p rest ih =>
    rcases p with ⟨k', x⟩
    by_cases h : k' = k
    · simp [setField, getField, h]
    · simp [setField, getField, h, ih]

theorem getField_setField_ne (d : Doc) (k k' : String) (v : JSVal) (hne : k ≠ k') :
    getField (setField d k v) k' = getField d k' := by
  induction d with
  | nil => simp [setField, getField, hne]
  | cons p rest ih =>
    rcases p with ⟨k₀, x⟩
    by_cases h : k₀ = k
    · subst h
      simp [setField, getField, hne]
    · by_cases h' : k₀ = k'
      · subst h'
        simp [setField, getField, h]
      · simp [setField, getField, h, h', ih]

theorem findDoc_putDoc_same (l : List (String × Doc)) (id : String) (d : Doc) :
    findDoc (putDoc l id d) id = some d := by
  induction l with
  | nil => simp [putDoc, findDoc]
  | cons p rest ih =>
    rcases p with ⟨k, x⟩
    by_cases h : k = id
    · simp [putDoc, findDoc, h]
    · simp [putDoc, findDoc, h, ih]

theorem mergedProfile_name (body cur : Doc) (pic : JSVal) :
    getField (mergedProfile body cur pic) "name" =
      (getField body "name").or (getField cur "name") := by
  unfold mergedProfile
  rw [getField_setField_ne _ _ _ _ (by decide), getField_setField_ne _ _ _ _ (by decide),
    getField_setField_ne _ _ _ _ (by decide), getField_setField_same]

theorem mergedProfile_gender (body cur : Doc) (pic : JSVal) :
    getField (mergedProfile body cur pic) "gender" =
      (getField body "gender").or (getField cur "gender") := by
  unfold mergedProfile
  rw [getField_setField_ne _ _ _ _ (by decide), getField_setField_ne _ _ _ _ (by decide),
    getField_setField_same]

theorem mergedProfile_lifestyle (body cur : Doc) (pic : JSVal) :
    getField (mergedProfile body cur pic) "lifestyle" =
      (getField body "lifestyle").or (getField cur "lifestyle") := by
  unfold mergedProfile
  rw [getField_setField_ne _ _ _ _ (by decide), getField_setField_same]

theorem mergedProfile_profilePicture (body cur : Doc) (pic : JSVal) :
    getField (mergedProfile body cur pic) "profilePicture" = pic := by
  unfold mergedProfile
  rw [getField_setField_same]

theorem mergedProfile_uid (body cur : Doc) (pic : JSVal) :
    getField (mergedProfile body cur pic) "uid" = getField cur "uid" := by
  unfold mergedProfile
  rw [getField_setField_ne _ _ _ _ (by decide), getField_setField_ne _ _ _ _ (by decide),
    getField_setField_ne _ _ _ _ (by decide), getField_setField_ne _ _ _ _ (by decide)]

theorem or_of_nonempty (s : String) (b : JSVal) (h : s ≠ "") : (JSVal.str s).or b = .str s := by
  simp [JSVal.or, JSVal.truthy, h]

theorem or_of_undefined (b : JSVal) : JSVal.undefined.or b = b := rfl

theorem or_of_empty (b : JSVal) : (JSVal.str "").or b = b := rfl

/-- The repository yields the record `cur`: the read completes and finds it. -/
theorem storedRecord_some {env : Env} {w : World} {uid : String} {cur : Doc}
    (h : storedRecord env w uid = .ok (some cur)) :
    env.docGetRejects = false ∧ findDoc w.profiles uid = some cur := by
  rw [storedRecord_eq] at h
  cases hget : env.docGetRejects
  · rw [hget] at h
    exact ⟨rfl, by simpa using h⟩
  · rw [hget] at h
    simp at h

theorem finishUpdate_ok {env : Env} {uid : String} {d : Doc} {s : St}
    (h : (finishUpdate env uid d s).1.status = 200) :
    finishUpdate env uid d s =
      (⟨200, .withProfile "Profile updated successfully" d⟩,
        { world := { s.world with profiles := putDoc s.world.profiles uid d },
          trace := s.trace ++ [.docSet uid d] }) := by
  unfold finishUpdate at h ⊢
  cases hse : setError env d with
  | none => rfl
  | some e =>
    rw [hse] at h
    simp at h

theorem finishUpdate_of_completes {env : Env} {uid : String} {d : Doc} {s : St}
    (h : setError env d = none) :
    finishUpdate env uid d s =
      (⟨200, .withProfile "Profile updated successfully" d⟩,
        { world := { s.world with profiles := putDoc s.world.profiles uid d },
          trace := s.trace ++ [.docSet uid d] }) := by
  unfold finishUpdate
  rw [h]

theorem finishUpdate_trace (env : Env) (uid : String) (d : Doc) (s : St) :
    (finishUpdate env uid d s).2.trace = s.trace ++ [.docSet uid d] := by
  unfold finishUpdate
  cases setError env d <;> rfl

theorem finishUpdate_objects (env : Env) (uid : String) (d : Doc) (s : St) :
    (finishUpdate env uid d s).2.world.objects = s.world.objects := by
  unfold finishUpdate
  cases setError env d <;> rfl

theorem finishCreate_of_completes {env : Env} {u : String} {d : Doc} {s : St}
    (h : setError env d = none) :
    finishCreate env u d s =
      (⟨201, .withProfile "Profile created successfully" d⟩,
        { world := { s.world with profiles := putDoc s.world.profiles u d },
          trace := s.trace ++ [.docSet u d] }) := by
  unfold finishCreate
  rw [h]

theorem finishCreate_ok {env : Env} {u : String} {d : Doc} {s : St}
    (h : (finishCreate env u d s).1.status = 201) : setError env d = none := by
  unfold finishCreate at h
  cases hse : setError env d with
  | none => rfl
  | some e =>
    rw [hse] at h
    simp at h

theorem finishCreate_trace (env : Env) (u : String) (d : Doc) (s : St) :
    (finishCreate env u d s).2.trace = s.trace ++ [.docSet u d] := by
  unfold finishCreate
  cases setError env d <;> rfl

/-- A successful Update wrote and returned a merged record. -/
theorem putProfile_ok {env : Env} {w : World} {req : PutRequest} {cur : Doc}
    (hid : identityCheck env (.str req.uid) (start w) ≠ none)
    (hcur : storedRecord env w req.uid = .ok (some cur))
    (hok : (putProfile env req (start w)).1.status = 200) :
    ∃ (pic : JSVal) (s : St), putProfile env req (start w) =
      (⟨200, .withProfile "Profile updated successfully" (mergedProfile req.body cur pic)⟩,
        { world := { s.world with
            profiles := putDoc s.world.profiles req.uid (mergedProfile req.body cur pic) },
          trace := s.trace ++ [.docSet req.uid (mergedProfile req.body cur pic)] }) := by
  obtain ⟨hget, hfind⟩ := storedRecord_some hcur
  obtain ⟨usr, husr⟩ := Option.ne_none_iff_exists'.mp hid
  have hfind' : findDoc (start w).world.profiles req.uid = some cur := hfind
  rw [putProfile_eq] at hok ⊢
  simp only [husr, hget, hfind', Bool.false_eq_true, if_false] at hok ⊢
  cases hfile : req.file with
  | none =>
    simp only [hfile] at hok ⊢
    exact ⟨_, _, finishUpdate_ok hok⟩
  | some file =>
    simp only [hfile] at hok ⊢
    generalize exec (removeOldPicture env (getField cur "profilePicture"))
      (afterRead req.uid (start w)) = out at hok ⊢
    rcases out with ⟨r, s₃⟩
    cases r with
    | error e => simp at hok
    | ok u =>
      simp only at hok ⊢
      cases hup : env.uploadRejects
      · cases hul : env.unlinkThrows
        · simp only [hup, hul, Bool.false_eq_true, if_false] at hok ⊢
          exact ⟨_, _, finishUpdate_ok hok⟩
        · simp [hup, hul] at hok
      · simp [hup] at hok

/-- C3: after a successful Update of an existing record, the stored record is
the returned record, and each of its fields name, gender and lifestyle is the
supplied value when a non-empty string was supplied and the existing record's
value when the field was omitted or empty.  In particular an existing record
with name A, gender M, lifestyle L, updated with only lifestyle Z, has name A,
gender M, lifestyle Z. -/
theorem update_merges_supplied_fields (env : Env) (w : World) (req : PutRequest) (cur : Doc)
    (hid : identityCheck env (.str req.uid) (start w) ≠ none)
    (hcur : storedRecord env w req.uid = .ok (some cur))
    (hok : (putProfile env req (start w)).1.status = 200) :
    ∃ d : Doc,
      (putProfile env req (start w)).1.body = .withProfile "Profile updated successfully" d ∧
      findDoc (putProfile env req (start w)).2.world.profiles req.uid = some d ∧
      (∀ f, f = "name" ∨ f = "gender" ∨ f = "lifestyle" →
        (∀ v, getField req.body f = .str v → v ≠ "" → getField d f = .str v) ∧
        (getField req.body f = .undefined ∨ getField req.body f = .str "" →
          getField d f = getField cur f)) ∧
      (getField cur "name" = .str "A" → getField cur "gender" = .str "M" →
        getField cur "lifestyle" = .str "L" → req.body = [("lifestyle", .str "Z")] →
        getField d "name" = .str "A" ∧ getField d "gender" = .str "M" ∧
        getField d "lifestyle" = .str "Z") := by
  obtain ⟨pic, s, hrun⟩ := putProfile_ok hid hcur hok
  refine ⟨mergedProfile req.body cur pic, ?_, ?_, ?_, ?_⟩
  · rw [hrun]
  · rw [hrun]
    exact findDoc_putDoc_same _ _ _
  · intro f hf
    rcases hf with rfl | rfl | rfl
    · rw [mergedProfile_name]
      refine ⟨fun v hv hne => ?_, fun h => ?_⟩
      · rw [hv, or_of_nonempty _ _ hne]
      · rcases h with h | h <;> rw [h] <;> rfl
    · rw [mergedProfile_gender]
      refine ⟨fun v hv hne => ?_, fun h => ?_⟩
      · rw [hv, or_of_nonempty _ _ hne]
      · rcases h with h | h <;> rw [h] <;> rfl
    · rw [mergedProfile_lifestyle]
      refine ⟨fun v hv hne => ?_, fun h => ?_⟩
      · rw [hv, or_of_nonempty _ _ hne]
      · rcases h with h | h <;> rw [h] <;> rfl
  · intro hn hg hl hbody
    rw [mergedProfile_name, mergedProfile_gender, mergedProfile_lifestyle, hbody, hn, hg, hl]
    exact ⟨rfl, rfl, rfl⟩

/-- C3 at a concrete request: `u1` is updated with only lifestyle `Z`. -/
theorem update_merges_supplied_fields_witness :
    identityCheck (calm 9) (.str "u1") (start sampleWorld) ≠ none ∧
    storedRecord (calm 9) sampleWorld "u1" = .ok (some sampleRecord) ∧
    (putProfile (calm 9) ⟨"u1", [("lifestyle", .str "Z")], none⟩
      (start sampleWorld)).1.status = 200 ∧
    ∃ d : Doc,
      (putProfile (calm 9) ⟨"u1", [("lifestyle", .str "Z")], none⟩ (start sampleWorld)).1.body =
        .withProfile "Profile updated successfully" d ∧
      getField d "name" = .str "A" ∧ getField d "gender" = .str "M" ∧
      getField d "lifestyle" = .str "Z" := by
  refine ⟨by decide, rfl, by decide, ?_⟩
  obtain ⟨d, hbody, _, _, hex⟩ :=
    update_merges_supplied_fields (calm 9) sampleWorld
      ⟨"u1", [("lifestyle", .str "Z")], none⟩ sampleRecord (by decide) rfl (by decide)
  exact ⟨d, hbody, hex rfl rfl rfl rfl⟩

theorem mem_two {c a b : Call} (h : c ∈ ([] : List Call) ++ [a] ++ [b]) : c = a ∨ c = b := by
  simpa using h

/-- C5: a Create without a file, for a verified identifier, makes exactly two
external calls, the identity check and one repository write, hence no
media-store call; the record handed to the write has a null media locator; when
the write completes the response is 201 and carries that same record, which is
then the stored one; and a 201 response never carries another record. -/
theorem create_without_file_has_null_locator (env : Env) (w : World) (body : Doc) (u : String)
    (huid : getField body "uid" = .str u)
    (hid : identityCheck env (getField body "uid") (start w) ≠ none) :
    (postProfile env ⟨body, none⟩ (start w)).2.trace =
      [.authGetUser (.str u), .docSet u (newProfile body .null)] ∧
    (∀ c ∈ (postProfile env ⟨body, none⟩ (start w)).2.trace, c.isMedia = false) ∧
    getField (newProfile body .null) "profilePicture" = .null ∧
    (setError env (newProfile body .null) = none →
      (postProfile env ⟨body, none⟩ (start w)).1 =
        ⟨201, .withProfile "Profile created successfully" (newProfile body .null)⟩ ∧
      findDoc (postProfile env ⟨body, none⟩ (start w)).2.world.profiles u =
        some (newProfile body .null)) ∧
    ((postProfile env ⟨body, none⟩ (start w)).1.status = 201 →
      (postProfile env ⟨body, none⟩ (start w)).1.body =
        .withProfile "Profile created successfully" (newProfile body .null) ∧
      findDoc (postProfile env ⟨body, none⟩ (start w)).2.world.profiles u =
        some (newProfile body .null)) := by
  obtain ⟨usr, husr⟩ := Option.ne_none_iff_exists'.mp hid
  have hrun : postProfile env ⟨body, none⟩ (start w) =
      finishCreate env u (newProfile body .null) ((start w).log (.authGetUser (.str u))) := by
    rw [huid] at husr
    rw [postProfile_eq]
    simp only [huid, husr]
  have hdone : setError env (newProfile body .null) = none →
      (finishCreate env u (newProfile body .null) ((start w).log (.authGetUser (.str u)))).1 =
        ⟨201, .withProfile "Profile created successfully" (newProfile body .null)⟩ ∧
      findDoc (finishCreate env u (newProfile body .null)
          ((start w).log (.authGetUser (.str u)))).2.world.profiles u =
        some (newProfile body .null) := by
    intro hse
    rw [finishCreate_of_completes hse]
    exact ⟨rfl, findDoc_putDoc_same _ _ _⟩
  rw [hrun]
  refine ⟨finishCreate_trace _ _ _ _, ?_, rfl, hdone, fun h201 => ?_⟩
  · intro c hc
    rw [finishCreate_trace] at hc
    rcases mem_two hc with rfl | rfl <;> rfl
  · obtain ⟨h1, h2⟩ := hdone (finishCreate_ok h201)
    exact ⟨by rw [h1], h2⟩

/-- C5 at a concrete request: all fields are supplied and the write completes. -/
theorem create_without_file_has_null_locator_witness :
    getField [("uid", JSVal.str "u2"), ("name", .str "Ann"), ("gender", .str "F"),
      ("lifestyle", .str "active")] "uid" = .str "u2" ∧
    identityCheck (calm 9) (getField [("uid", JSVal.str "u2"), ("name", .str "Ann"),
      ("gender", .str "F"), ("lifestyle", .str "active")] "uid") (start sampleWorld) ≠ none ∧
    setError (calm 9) (newProfile [("uid", .str "u2"), ("name", .str "Ann"), ("gender", .str "F"),
      ("lifestyle", .str "active")] .null) = none ∧
    (postProfile (calm 9) ⟨[("uid", .str "u2"), ("name", .str "Ann"), ("gender", .str "F"),
      ("lifestyle", .str "active")], none⟩ (start sampleWorld)).1 =
      ⟨201, .withProfile "Profile created successfully"
        (newProfile [("uid", .str "u2"), ("name", .str "Ann"), ("gender", .str "F"),
          ("lifestyle", .str "active")] .null)⟩ :=
  ⟨by decide, by decide, by decide,
   ((create_without_file_has_null_locator (calm 9) sampleWorld
      [("uid", .str "u2"), ("name", .str "Ann"), ("gender", .str "F"),
       ("lifestyle", .str "active")] "u2" (by decide) (by decide)).2.2.2.1 (by decide)).1⟩

theorem mem_three {c a b d : Call} (h : c ∈ ([] : List Call) ++ [a] ++ [b] ++ [d]) :
    c = a ∨ c = b ∨ c = d := by
  simpa using h

/-- C7: an Update without a file, of an existing record, makes exactly three
external calls, the identity check, the repository read and one repository
write, hence no media-store call, and leaves the bucket as it was; the record
handed to the write carries the media locator of the existing record whatever
the fields; when the write completes the response is 200 with that same record,
which is then the stored one; and a 200 response never carries another
record. -/
theorem update_without_file_keeps_locator (env : Env) (w : World) (uid : String) (fields : Doc)
    (cur : Doc)
    (hid : identityCheck env (.str uid) (start w) ≠ none)
    (hcur : storedRecord env w uid = .ok (some cur)) :
    ∃ d : Doc,
      getField d "profilePicture" = getField cur "profilePicture" ∧
      (putProfile env ⟨uid, fields, none⟩ (start w)).2.trace =
        [.authGetUser (.str uid), .docGet uid, .docSet uid d] ∧
      (∀ c ∈ (putProfile env ⟨uid, fields, none⟩ (start w)).2.trace, c.isMedia = false) ∧
      (putProfile env ⟨uid, fields, none⟩ (start w)).2.world.objects = w.objects ∧
      (setError env d = none →
        (putProfile env ⟨uid, fields, none⟩ (start w)).1 =
          ⟨200, .withProfile "Profile updated successfully" d⟩ ∧
        findDoc (putProfile env ⟨uid, fields, none⟩ (start w)).2.world.profiles uid = some d) ∧
      ((putProfile env ⟨uid, fields, none⟩ (start w)).1.status = 200 →
        (putProfile env ⟨uid, fields, none⟩ (start w)).1.body =
          .withProfile "Profile updated successfully" d ∧
        findDoc (putProfile env ⟨uid, fields, none⟩ (start w)).2.world.profiles uid = some d) := by
  obtain ⟨hget, hfind⟩ := storedRecord_some hcur
  obtain ⟨usr, husr⟩ := Option.ne_none_iff_exists'.mp hid
  have hfind' : findDoc (start w).world.profiles uid = some cur := hfind
  have hrun : putProfile env ⟨uid, fields, none⟩ (start w) =
      finishUpdate env uid (mergedProfile fields cur (getField cur "profilePicture"))
        (afterRead uid (start w)) := by
    rw [putProfile_eq]
    simp only [husr, hget, hfind', Bool.false_eq_true, if_false]
  refine ⟨mergedProfile fields cur (getField cur "profilePicture"),
    mergedProfile_profilePicture _ _ _, ?_⟩
  rw [hrun]
  refine ⟨finishUpdate_trace _ _ _ _, ?_, finishUpdate_objects _ _ _ _, fun hse => ?_,
    fun h200 => ?_⟩
  · intro c hc
    rw [finishUpdate_trace] at hc
    rcases mem_three hc with rfl | rfl | rfl <;> rfl
  · rw [finishUpdate_of_completes hse]
    exact ⟨rfl, findDoc_putDoc_same _ _ _⟩
  · rw [finishUpdate_ok h200]
    exact ⟨rfl, findDoc_putDoc_same _ _ _⟩

/-- C7 at a concrete request: the stored record of `u1` keeps its locator. -/
theorem update_without_file_keeps_locator_witness :
    identityCheck (calm 9) (.str "u1") (start sampleWorld) ≠ none ∧
    storedRecord (calm 9) sampleWorld "u1" = .ok (some sampleRecord) ∧
    ∃ d : Doc,
      getField d "profilePicture" = getField sampleRecord "profilePicture" ∧
      (putProfile (calm 9) ⟨"u1", [("name", .str "B")], none⟩ (start sampleWorld)).1.status =
        200 ∧
      (putProfile (calm 9) ⟨"u1", [("name", .str "B")], none⟩ (start sampleWorld)).1.body =
        .withProfile "Profile updated successfully" d := by
  refine ⟨by decide, rfl, ?_⟩
  obtain ⟨d, hpic, _, _, _, _, hdone⟩ :=
    update_without_file_keeps_locator (calm 9) sampleWorld "u1" [("name", .str "B")]
      sampleRecord (by decide) rfl
  exact ⟨d, hpic, by decide, (hdone (by decide)).1⟩

theorem finishCreate_accounts (env : Env) (u : String) (d : Doc) (s : St) :
    (finishCreate env u d s).2.world.accounts = s.world.accounts := by
  unfold finishCreate
  cases setError env d <;> rfl

/-- Create never changes the accounts of the auth provider. -/
theorem postProfile_accounts (env : Env) (req : PostRequest) (s : St) :
    (postProfile env req s).2.world.accounts = s.world.accounts := by
  rw [postProfile_eq]
  split
  · split
    · rw [finishCreate_accounts]
      rfl
    · split_ifs
      · rfl
      · rfl
      · rw [finishCreate_accounts]
        rfl
  · rfl

/-- The identity check looks only at the accounts. -/
theorem identityCheck_congr (env : Env) (uid : JSVal) (s s' : St)
    (h : s'.world.accounts = s.world.accounts) :
    identityCheck env uid s' = identityCheck env uid s := by
  rw [identityCheck_eq, identityCheck_eq, h]

/-- The write of a new record completes when the three fields are supplied and
Firestore does not reject. -/
theorem setError_newProfile {env : Env} {body : Doc} {u : String}
    (huid : getField body "uid" = .str u)
    (hname : getField body "name" ≠ .undefined)
    (hgender : getField body "gender" ≠ .undefined)
    (hlifestyle : getField body "lifestyle" ≠ .undefined)
    (hset : env.docSetRejects = false) :
    setError env (newProfile body .null) = none := by
  simp [setError, hasUndefined, newProfile, huid, hname, hgender, hlifestyle, hset]

/-- A Create without a file whose write completes. -/
theorem postProfile_created {env : Env} {w : World} {body : Doc} {u : String}
    (huid : getField body "uid" = .str u)
    (hid : identityCheck env (getField body "uid") (start w) ≠ none)
    (hset : setError env (newProfile body .null) = none) :
    postProfile env ⟨body, none⟩ (start w) =
      (⟨201, .withProfile "Profile created successfully" (newProfile body .null)⟩,
        { world := { w with profiles := putDoc w.profiles u (newProfile body .null) },
          trace := [.authGetUser (.str u), .docSet u (newProfile body .null)] }) := by
  obtain ⟨usr, husr⟩ := Option.ne_none_iff_exists'.mp hid
  rw [huid] at husr
  rw [postProfile_eq]
  simp only [huid, husr]
  rw [finishCreate_of_completes hset]
  rfl

/-- C4 as stated fails.  The account `u2` exists and no call is rejected from
outside, but the Create omits the name: the record then holds an `undefined`
field, the repository write refuses it, the response is 500 and nothing is
stored.  And with every field supplied, a Create whose write is rejected by the
repository answers 500 as well. -/
theorem create_without_file_can_answer_500 :
    identityCheck (calm 9) (getField [("uid", JSVal.str "u2"), ("gender", .str "F"),
      ("lifestyle", .str "active")] "uid") (start sampleWorld) ≠ none ∧
    postProfile (calm 9)
        ⟨[("uid", .str "u2"), ("gender", .str "F"), ("lifestyle", .str "active")], none⟩
        (start sampleWorld) =
      (⟨500, .failure "Error creating profile" .invalidArgument⟩,
        { world := sampleWorld,
          trace := [.authGetUser (.str "u2"),
            .docSet "u2" [("uid", .str "u2"), ("name", .undefined), ("gender", .str "F"),
              ("lifestyle", .str "active"), ("profilePicture", .null)]] }) ∧
    postProfile { calm 9 with docSetRejects := true }
        ⟨[("uid", .str "u2"), ("name", .str "Ann"), ("gender", .str "F"),
          ("lifestyle", .str "active")], none⟩
        (start sampleWorld) =
      (⟨500, .failure "Error creating profile" .firestoreError⟩,
        { world := sampleWorld,
          trace := [.authGetUser (.str "u2"),
            .docSet "u2" [("uid", .str "u2"), ("name", .str "Ann"), ("gender", .str "F"),
              ("lifestyle", .str "active"), ("profilePicture", .null)]] }) :=
  ⟨by decide, by decide, by decide⟩

/-- C4, amended: for a verified identifier, field values in which name, gender
and lifestyle are all supplied, and whatever the repository already holds, a
Create without a file whose repository write is not rejected answers 201: there
is no duplicate check.  A Read of the same identifier that follows (identity
still verified, read completing) answers with exactly the record built from that
Create, with a null media locator.  So of two Creates for one identifier, the
fields of the second are the ones stored. -/
theorem create_overwrites_existing_record (env env₀ env₂ : Env) (w : World)
    (body body₀ : Doc) (u : String)
    (huid : getField body "uid" = .str u)
    (hname : getField body "name" ≠ .undefined)
    (hgender : getField body "gender" ≠ .undefined)
    (hlifestyle : getField body "lifestyle" ≠ .undefined)
    (hid : identityCheck env (getField body "uid") (start w) ≠ none)
    (hset : env.docSetRejects = false) :
    (postProfile env ⟨body, none⟩ (start w)).1 =
      ⟨201, .withProfile "Profile created successfully"
        [("uid", .str u), ("name", getField body "name"), ("gender", getField body "gender"),
         ("lifestyle", getField body "lifestyle"), ("profilePicture", .null)]⟩ ∧
    (identityCheck env₂ (.str u) (start (postProfile env ⟨body, none⟩ (start w)).2.world) ≠ none →
      env₂.docGetRejects = false →
      (getProfile env₂ u (start (postProfile env ⟨body, none⟩ (start w)).2.world)).1 =
        ⟨200, .data
          [("uid", .str u), ("name", getField body "name"), ("gender", getField body "gender"),
           ("lifestyle", getField body "lifestyle"), ("profilePicture", .null)]⟩) ∧
    (getField body₀ "uid" = .str u →
      (postProfile env ⟨body, none⟩
          (start (postProfile env₀ ⟨body₀, none⟩ (start w)).2.world)).1.status = 201 ∧
      findDoc (postProfile env ⟨body, none⟩
          (start (postProfile env₀ ⟨body₀, none⟩ (start w)).2.world)).2.world.profiles u =
        some [("uid", .str u), ("name", getField body "name"),
          ("gender", getField body "gender"), ("lifestyle", getField body "lifestyle"),
          ("profilePicture", .null)]) := by
  have hnew : newProfile body .null =
      [("uid", .str u), ("name", getField body "name"), ("gender", getField body "gender"),
       ("lifestyle", getField body "lifestyle"), ("profilePicture", .null)] := by
    unfold newProfile
    rw [huid]
  have hwrite := setError_newProfile huid hname hgender hlifestyle hset
  rw [← hnew]
  refine ⟨?_, ?_, ?_⟩
  · rw [postProfile_created huid hid hwrite]
  · intro hid₂ hget
    obtain ⟨usr, husr⟩ := Option.ne_none_iff_exists'.mp hid₂
    rw [getProfile_eq]
    simp only [husr, hget, Bool.false_eq_true, if_false]
    have hfind : findDoc (start (postProfile env ⟨body, none⟩ (start w)).2.world).world.profiles u =
        some (newProfile body .null) := by
      rw [postProfile_created huid hid hwrite]
      exact findDoc_putDoc_same _ _ _
    simp only [hfind]
  · intro _
    have hid' : identityCheck env (getField body "uid")
        (start (postProfile env₀ ⟨body₀, none⟩ (start w)).2.world) ≠ none := by
      have hsame := identityCheck_congr env (getField body "uid") (start w)
        (start (postProfile env₀ ⟨body₀, none⟩ (start w)).2.world)
        (postProfile_accounts env₀ _ (start w))
      rw [hsame]
      exact hid
    rw [postProfile_created huid hid' hwrite]
    exact ⟨rfl, findDoc_putDoc_same _ _ _⟩

/-- C4, amended, at a concrete request: `u1` already has a profile and is
created again. -/
theorem create_overwrites_existing_record_witness :
    getField [("uid", JSVal.str "u1"), ("name", .str "Ann"), ("gender", .str "F"),
      ("lifestyle", .str "active")] "uid" = .str "u1" ∧
    getField [("uid", JSVal.str "u1"), ("name", .str "Ann"), ("gender", .str "F"),
      ("lifestyle", .str "active")] "name" ≠ .undefined ∧
    getField [("uid", JSVal.str "u1"), ("name", .str "Ann"), ("gender", .str "F"),
      ("lifestyle", .str "active")] "gender" ≠ .undefined ∧
    getField [("uid", JSVal.str "u1"), ("name", .str "Ann"), ("gender", .str "F"),
      ("lifestyle", .str "active")] "lifestyle" ≠ .undefined ∧
    identityCheck (calm 9) (getField [("uid", JSVal.str "u1"), ("name", .str "Ann"),
      ("gender", .str "F"), ("lifestyle", .str "active")] "uid") (start sampleWorld) ≠ none ∧
    (calm 9).docSetRejects = false ∧
    (postProfile (calm 9) ⟨[("uid", .str "u1"), ("name", .str "Ann"), ("gender", .str "F"),
      ("lifestyle", .str "active")], none⟩ (start sampleWorld)).1 =
      ⟨201, .withProfile "Profile created successfully"
        [("uid", .str "u1"), ("name", .str "Ann"), ("gender", .str "F"),
         ("lifestyle", .str "active"), ("profilePicture", .null)]⟩ :=
  ⟨by decide, by decide, by decide, by decide, by decide, rfl,
   (create_overwrites_existing_record (calm 9) (calm 8) (calm 10) sampleWorld
      [("uid", .str "u1"), ("name", .str "Ann"), ("gender", .str "F"),
       ("lifestyle", .str "active")] [] "u1" (by decide) (by decide) (by decide) (by decide)
      (by decide) rfl).1⟩

theorem keyedByUid_iff (w : World) :
    keyedByUid w = true ↔ ∀ id d, (id, d) ∈ w.profiles → getField d "uid" = .str id := by
  simp [keyedByUid, List.all_eq_true]

theorem mem_putDoc {l : List (String × Doc)} {id : String} {d : Doc} {p : String × Doc}
    (h : p ∈ putDoc l id d) : p ∈ l ∨ p = (id, d) := by
  induction l with
  | nil => simpa [putDoc] using h
  | cons q rest ih =>
    rcases q with ⟨k, x⟩
    by_cases hk : k = id
    · subst hk
      simp only [putDoc, if_true, List.mem_cons] at h
      rcases h with h | h
      · exact Or.inr h
      · exact Or.inl (List.mem_cons_of_mem _ h)
    · simp only [putDoc, hk, if_false, List.mem_cons] at h
      rcases h with h | h
      · exact Or.inl (h ▸ List.mem_cons_self _ _)
      · rcases ih h with h' | h'
        · exact Or.inl (List.mem_cons_of_mem _ h')
        · exact Or.inr h'

theorem mem_of_findDoc {l : List (String × Doc)} {id : String} {d : Doc}
    (h : findDoc l id = some d) : (id, d) ∈ l := by
  induction l with
  | nil => simp [findDoc] at h
  | cons q rest ih =>
    rcases q with ⟨k, x⟩
    by_cases hk : k = id
    · subst hk
      simp only [findDoc, if_true, Option.some.injEq] at h
      subst h
      exact List.mem_cons_self _ _
    · simp only [findDoc, hk, if_false] at h
      exact List.mem_cons_of_mem _ (ih h)

theorem newProfile_uid (body : Doc) (pic : JSVal) :
    getField (newProfile body pic) "uid" = getField body "uid" := by
  simp [newProfile, getField]

theorem publicUrl_ne_empty (bucketName uploadedName : String) :
    publicUrl bucketName uploadedName ≠ "" := by
  intro h
  have hlen := congrArg (fun s : String => s.data.length) h
  simp [publicUrl, String.data_append] at hlen

theorem finishCreate_effect (env : Env) (u : String) (d : Doc) (s : St) :
    ((finishCreate env u d s).2.world.profiles = s.world.profiles ∨
      (finishCreate env u d s).2.world.profiles = putDoc s.world.profiles u d) ∧
    (finishCreate env u d s).2.trace = s.trace ++ [.docSet u d] := by
  unfold finishCreate
  cases setError env d
  · exact ⟨Or.inr rfl, rfl⟩
  · exact ⟨Or.inl rfl, rfl⟩

/-- What a Create leaves behind: the repository as it was and no write, or one
write attempt, under the key that is the supplied uid, of a new record whose
media locator is null or a non-empty string. -/
theorem postProfile_effect (env : Env) (req : PostRequest) (w : World) :
    ((postProfile env req (start w)).2.world.profiles = w.profiles ∧
      ∀ c ∈ (postProfile env req (start w)).2.trace, c.isWrite = false) ∨
    ∃ (u : String) (pic : JSVal), getField req.body "uid" = .str u ∧ locatorOk pic = true ∧
      ((postProfile env req (start w)).2.world.profiles = w.profiles ∨
        (postProfile env req (start w)).2.world.profiles =
          putDoc w.profiles u (newProfile req.body pic)) ∧
      ∀ c ∈ (postProfile env req (start w)).2.trace,
        c.isWrite = true → c = .docSet u (newProfile req.body pic) := by
  rw [postProfile_eq]
  cases hid : identityCheck env (getField req.body "uid") (start w) with
  | none =>
    left
    simp only
    refine ⟨rfl, fun c hc => ?_⟩
    have hc' : c = .authGetUser (getField req.body "uid") := by simpa [start, St.log] using hc
    subst hc'
    rfl
  | some usr =>
    obtain ⟨u, hu⟩ := identityCheck_accepts (by rw [hid]; simp)
    rw [hu]
    simp only
    cases hfile : req.file with
    | none =>
      right
      refine ⟨u, .null, rfl, rfl, ?_⟩
      obtain ⟨hp, ht⟩ := finishCreate_effect env u (newProfile req.body .null)
        ((start w).log (.authGetUser (.str u)))
      refine ⟨hp, fun c hc hw => ?_⟩
      rw [ht] at hc
      rcases mem_two hc with rfl | rfl
      · cases hw
      · rfl
    | some file =>
      simp only
      cases env.uploadRejects
      · cases env.unlinkThrows
        · right
          simp only [Bool.false_eq_true, if_false]
          refine ⟨u, .str (publicUrl w.bucketName
            (uploadDestination env.now file.originalname)), rfl, ?_, ?_⟩
          · simpa [locatorOk] using publicUrl_ne_empty _ _
          · obtain ⟨hp, ht⟩ := finishCreate_effect env u
              (newProfile req.body (.str (publicUrl w.bucketName
                (uploadDestination env.now file.originalname))))
              (afterUpload env file ((start w).log (.authGetUser (.str u))))
            refine ⟨hp, fun c hc hw => ?_⟩
            replace hc : c ∈ (afterUpload env file
                ((start w).log (.authGetUser (.str u)))).trace ++
                [.docSet u (newProfile req.body (.str (publicUrl w.bucketName
                  (uploadDestination env.now file.originalname))))] := by
              rw [← ht]
              exact hc
            simp only [afterUpload, start, St.log, List.nil_append, List.cons_append,
              List.mem_cons, List.mem_singleton, List.not_mem_nil, or_false,
              List.mem_append] at hc
            rcases hc with rfl | rfl | rfl | rfl
            · cases hw
            · cases hw
            · cases hw
            · rfl
        · left
          refine ⟨rfl, fun c hc => ?_⟩
          simp only [Bool.false_eq_true, if_false, if_true, afterUpload, start, St.log,
            List.nil_append, List.cons_append, List.mem_cons, List.mem_singleton,
            List.not_mem_nil, or_false] at hc
          rcases hc with rfl | rfl | rfl <;> rfl
      · left
        refine ⟨rfl, fun c hc => ?_⟩
        simp only [if_true, start, St.log,
          List.nil_append, List.cons_append, List.mem_cons, List.mem_singleton,
          List.not_mem_nil, or_false] at hc
        rcases hc with rfl | rfl <;> rfl

/-- The removal of the old picture touches neither the repository nor the
bucket's name, and records at most a delete. -/
theorem removeOldPicture_frame (env : Env) (pic : JSVal) (s : St) :
    (exec (removeOldPicture env pic) s).2.world.profiles = s.world.profiles ∧
    (exec (removeOldPicture env pic) s).2.world.bucketName = s.world.bucketName ∧
    ∃ extra, (exec (removeOldPicture env pic) s).2.trace = s.trace ++ extra ∧
      ∀ c ∈ extra, c.isWrite = false := by
  rw [exec_removeOldPicture]
  cases pic with
  | str url =>
    split_ifs
    · refine ⟨rfl, rfl, [.fileDelete (oldObjectName url)], rfl, fun c hc => ?_⟩
      have hc' : c = .fileDelete (oldObjectName url) := by simpa using hc
      subst hc'
      rfl
    · exact ⟨rfl, rfl, [], by simp, by simp⟩
  | _ =>
    split_ifs <;> exact ⟨rfl, rfl, [], by simp, by simp⟩

theorem finishUpdate_effect (env : Env) (uid : String) (d : Doc) (s : St) :
    ((finishUpdate env uid d s).2.world.profiles = s.world.profiles ∨
      (finishUpdate env uid d s).2.world.profiles = putDoc s.world.profiles uid d) ∧
    (finishUpdate env uid d s).2.trace = s.trace ++ [.docSet uid d] := by
  unfold finishUpdate
  cases setError env d
  · exact ⟨Or.inr rfl, rfl⟩
  · exact ⟨Or.inl rfl, rfl⟩

/-- What an Update leaves behind: the repository as it was and no write, or one
write attempt, under the requested key, of a record merged over the existing
one, whose media locator is the existing one or a fresh non-empty string. -/
theorem putProfile_effect (env : Env) (req : PutRequest) (w : World) :
    ((putProfile env req (start w)).2.world.profiles = w.profiles ∧
      ∀ c ∈ (putProfile env req (start w)).2.trace, c.isWrite = false) ∨
    ∃ (cur : Doc) (pic : JSVal), findDoc w.profiles req.uid = some cur ∧
      (pic = getField cur "profilePicture" ∨ locatorOk pic = true) ∧
      ((putProfile env req (start w)).2.world.profiles = w.profiles ∨
        (putProfile env req (start w)).2.world.profiles =
          putDoc w.profiles req.uid (mergedProfile req.body cur pic)) ∧
      ∀ c ∈ (putProfile env req (start w)).2.trace,
        c.isWrite = true → c = .docSet req.uid (mergedProfile req.body cur pic) := by
  rw [putProfile_eq]
  cases hid : identityCheck env (.str req.uid) (start w) with
  | none =>
    left
    refine ⟨rfl, fun c hc => ?_⟩
    have hc' : c = .authGetUser (.str req.uid) := by simpa [start, St.log] using hc
    subst hc'
    rfl
  | some usr =>
    have hread : ∀ c ∈ (afterRead req.uid (start w)).trace, c.isWrite = false := by
      intro c hc
      have hc' : c = .authGetUser (.str req.uid) ∨ c = .docGet req.uid := by
        simpa [afterRead, start, St.log] using hc
      rcases hc' with rfl | rfl <;> rfl
    simp only
    cases env.docGetRejects with
    | true => exact Or.inl ⟨rfl, hread⟩
    | false =>
      simp only [Bool.false_eq_true, if_false]
      cases hfind : findDoc (start w).world.profiles req.uid with
      | none => exact Or.inl ⟨rfl, hread⟩
      | some cur =>
        simp only
        cases hfile : req.file with
        | none =>
          right
          refine ⟨cur, getField cur "profilePicture", hfind, Or.inl rfl, ?_⟩
          obtain ⟨hp, ht⟩ := finishUpdate_effect env req.uid
            (mergedProfile req.body cur (getField cur "profilePicture")) (afterRead req.uid (start w))
          refine ⟨hp, fun c hc hw => ?_⟩
          rw [ht] at hc
          simp only [List.mem_append, List.mem_singleton] at hc
          rcases hc with hc | hc
          · rw [hread c hc] at hw
            cases hw
          · exact hc
        | some file =>
          obtain ⟨hprof, hname, extra, htr, hextra⟩ :=
            removeOldPicture_frame env (getField cur "profilePicture") (afterRead req.uid (start w))
          generalize exec (removeOldPicture env (getField cur "profilePicture"))
            (afterRead req.uid (start w)) = out at hprof hname htr ⊢
          rcases out with ⟨r, s₃⟩
          have hpre : ∀ c ∈ s₃.trace, c.isWrite = false := by
            intro c hc
            simp only at htr
            rw [htr, List.mem_append] at hc
            rcases hc with hc | hc
            · exact hread c hc
            · exact hextra c hc
          have hprof' : s₃.world.profiles = w.profiles := hprof
          cases r with
          | error e => exact Or.inl ⟨hprof', hpre⟩
          | ok v =>
            simp only
            cases env.uploadRejects
            · cases env.unlinkThrows
              · right
                simp only [Bool.false_eq_true, if_false]
                refine ⟨cur, .str (publicUrl s₃.world.bucketName
                  (uploadDestination env.now file.originalname)), hfind, Or.inr ?_, ?_⟩
                · simpa [locatorOk] using publicUrl_ne_empty _ _
                obtain ⟨hp, ht⟩ := finishUpdate_effect env req.uid
                  (mergedProfile req.body cur
                    (.str (publicUrl s₃.world.bucketName
                      (uploadDestination env.now file.originalname))))
                  (afterUpload env file s₃)
                refine ⟨?_, fun c hc hw => ?_⟩
                · have hb : (afterUpload env file s₃).world.profiles = w.profiles := hprof'
                  rw [hb] at hp
                  exact hp
                · rw [ht] at hc
                  simp only [afterUpload, List.mem_append, List.mem_singleton, List.mem_cons,
                    List.not_mem_nil, or_false] at hc
                  rcases hc with (hc | hc | hc) | hc
                  · rw [hpre c hc] at hw
                    cases hw
                  · subst hc
                    cases hw
                  · subst hc
                    cases hw
                  · exact hc
              · left
                simp only [Bool.false_eq_true, if_false, if_true]
                refine ⟨hprof', fun c hc => ?_⟩
                simp only [afterUpload, List.mem_append, List.mem_singleton, List.mem_cons,
                  List.not_mem_nil, or_false] at hc
                rcases hc with hc | hc | hc
                · exact hpre c hc
                · subst hc
                  rfl
                · subst hc
                  rfl
            · left
              simp only [if_true]
              refine ⟨hprof', fun c hc => ?_⟩
              simp only [St.log, List.mem_append, List.mem_singleton] at hc
              rcases hc with hc | hc
              · exact hpre c hc
              · subst hc
                rfl

theorem locatorsFollowModel_iff (w : World) :
    locatorsFollowModel w = true ↔
      ∀ id d, (id, d) ∈ w.profiles → locatorOk (getField d "profilePicture") = true := by
  simp [locatorsFollowModel, List.all_eq_true]

theorem locatorsFollowModel_put {w w' : World} {id : String} {d : Doc}
    (hinv : locatorsFollowModel w = true) (hd : locatorOk (getField d "profilePicture") = true)
    (hw : w'.profiles = w.profiles ∨ w'.profiles = putDoc w.profiles id d) :
    locatorsFollowModel w' = true := by
  rw [locatorsFollowModel_iff] at hinv ⊢
  intro k x hmem
  rcases hw with hw | hw
  · rw [hw] at hmem
    exact hinv k x hmem
  · rw [hw] at hmem
    rcases mem_putDoc hmem with h | h
    · exact hinv k x h
    · cases h
      exact hd

/-- The data model of the media locator, null or a non-empty string, holds of
the empty repository and is kept by every Create. -/
theorem locatorsFollowModel_postProfile (env : Env) (req : PostRequest) (w : World)
    (hinv : locatorsFollowModel w = true) :
    locatorsFollowModel (postProfile env req (start w)).2.world = true := by
  rcases postProfile_effect env req w with ⟨hp, _⟩ | ⟨u, pic, _, hpic, hp, _⟩
  · exact (locatorsFollowModel_iff _).mpr (by rw [hp]; exact (locatorsFollowModel_iff w).mp hinv)
  · refine locatorsFollowModel_put hinv ?_ hp
    simpa [newProfile, getField] using hpic

/-- The data model of the media locator is kept by every Update. -/
theorem locatorsFollowModel_putProfile (env : Env) (req : PutRequest) (w : World)
    (hinv : locatorsFollowModel w = true) :
    locatorsFollowModel (putProfile env req (start w)).2.world = true := by
  rcases putProfile_effect env req w with ⟨hp, _⟩ | ⟨cur, pic, hcur, hpic, hp, _⟩
  · exact (locatorsFollowModel_iff _).mpr (by rw [hp]; exact (locatorsFollowModel_iff w).mp hinv)
  · refine locatorsFollowModel_put hinv ?_ hp
    rw [mergedProfile_profilePicture]
    rcases hpic with rfl | hpic
    · exact (locatorsFollowModel_iff w).mp hinv _ _ (mem_of_findDoc hcur)
    · exact hpic

/-- In a repository that follows the data model, a locator that is not null is
a non-empty string. -/
theorem locator_of_model {w : World} {uid : String} {cur : Doc}
    (hinv : locatorsFollowModel w = true) (hfind : findDoc w.profiles uid = some cur)
    (hpic : getField cur "profilePicture" ≠ .null) :
    ∃ url, url ≠ "" ∧ getField cur "profilePicture" = .str url := by
  have hok := (locatorsFollowModel_iff w).mp hinv _ _ (mem_of_findDoc hfind)
  cases hloc : getField cur "profilePicture" with
  | str url =>
    rw [hloc] at hok
    exact ⟨url, by simpa [locatorOk] using hok, rfl⟩
  | null => exact absurd hloc hpic
  | undefined => rw [hloc] at hok; simp [locatorOk] at hok
  | bool b => rw [hloc] at hok; simp [locatorOk] at hok
  | num n => rw [hloc] at hok; simp [locatorOk] at hok

theorem removeOldPicture_url (env : Env) (url : String) (hne : url ≠ "") (s : St) :
    exec (removeOldPicture env (.str url)) s = (.ok (), afterDelete env (oldObjectName url) s) := by
  rw [exec_removeOldPicture]
  simp [JSVal.truthy, hne]

/-- Update with a file, of a record whose locator is a non-empty string. -/
theorem putProfile_replace {env : Env} {w : World} {uid : String} {fields cur : Doc}
    {url : String} {file : MulterFile}
    (hid : identityCheck env (.str uid) (start w) ≠ none)
    (hcur : storedRecord env w uid = .ok (some cur))
    (hpic : getField cur "profilePicture" = .str url) (hne : url ≠ "") :
    putProfile env ⟨uid, fields, some file⟩ (start w) =
      if env.uploadRejects then
        (⟨500, .failure "Error updating profile" .storageError⟩,
          (afterDelete env (oldObjectName url) (afterRead uid (start w))).log
            (.bucketUpload file.path (uploadDestination env.now file.originalname) file.mimetype))
      else if env.unlinkThrows then
        (⟨500, .failure "Error updating profile" .fsError⟩,
          afterUpload env file (afterDelete env (oldObjectName url) (afterRead uid (start w))))
      else
        finishUpdate env uid
          (mergedProfile fields cur
            (.str (publicUrl w.bucketName (uploadDestination env.now file.originalname))))
          (afterUpload env file (afterDelete env (oldObjectName url) (afterRead uid (start w)))) := by
  obtain ⟨hget, hfind⟩ := storedRecord_some hcur
  obtain ⟨usr, husr⟩ := Option.ne_none_iff_exists'.mp hid
  have hfind' : findDoc (start w).world.profiles uid = some cur := hfind
  rw [putProfile_eq]
  simp only [husr, hget, hfind', hpic, removeOldPicture_url env url hne, Bool.false_eq_true,
    if_false]
  rfl

/-- C6 as stated fails.  The world is the one a Create with a picture leaves
behind; the record of `u1` has a locator that is not null; the Update supplies a
file; the remove and the store both succeed (one delete, then one upload, and
the new object is in the bucket); but the repository write is rejected: the
response is 500 and the repository still holds the old record, not the merged
one. -/
theorem rejected_write_after_successful_store :
    (postProfile (calm 5)
      ⟨[("uid", .str "u1"), ("name", .str "A"), ("gender", .str "M"), ("lifestyle", .str "L")],
        some ⟨"temp/f0", "a.png", "image/png"⟩⟩ (start freshWorld)).2.world = sampleWorld ∧
    identityCheck (writeDown 9) (.str "u1") (start sampleWorld) ≠ none ∧
    storedRecord (writeDown 9) sampleWorld "u1" = .ok (some sampleRecord) ∧
    getField sampleRecord "profilePicture" ≠ .null ∧
    (putProfile (writeDown 9) ⟨"u1", [], some sampleFile⟩ (start sampleWorld)).2.trace.filter
      Call.isMedia =
      [.fileDelete "profile-pictures/5-a.png",
       .bucketUpload "temp/f1" "profile-pictures/9-c.png" "image/png"] ∧
    (putProfile (writeDown 9) ⟨"u1", [], some sampleFile⟩ (start sampleWorld)).2.world.objects =
      [("profile-pictures/9-c.png", "image/png")] ∧
    (putProfile (writeDown 9) ⟨"u1", [], some sampleFile⟩ (start sampleWorld)).1 =
      ⟨500, .failure "Error updating profile" .firestoreError⟩ ∧
    findDoc (putProfile (writeDown 9) ⟨"u1", [], some sampleFile⟩
      (start sampleWorld)).2.world.profiles "u1" = some sampleRecord :=
  ⟨by decide, by decide, rfl, by decide, by decide, by decide, by decide, by decide⟩

/-- C6, amended: in a repository whose media locators follow the data model
(null or a non-empty string, which Create and Update keep), when the existing
record's media locator is not null, an Update that supplies a file makes exactly
two media-store calls, one remove of the key derived from the old locator and
then one upload, whether the remove rejects or not and whatever happens
afterwards; and when the store succeeds (upload and release of the temporary
file) and the repository write completes, the merged record carrying the new
locator is stored and returned with status 200. -/
theorem update_with_file_removes_then_stores (env : Env) (w : World) (uid : String)
    (fields cur : Doc) (file : MulterFile)
    (hmodel : locatorsFollowModel w = true)
    (hid : identityCheck env (.str uid) (start w) ≠ none)
    (hcur : storedRecord env w uid = .ok (some cur))
    (hpic : getField cur "profilePicture" ≠ .null) :
    ∃ url, getField cur "profilePicture" = .str url ∧
      (putProfile env ⟨uid, fields, some file⟩ (start w)).2.trace.filter Call.isMedia =
        [.fileDelete (oldObjectName url),
         .bucketUpload file.path (uploadDestination env.now file.originalname) file.mimetype] ∧
      (env.uploadRejects = false → env.unlinkThrows = false →
        setError env (mergedProfile fields cur
          (.str (publicUrl w.bucketName (uploadDestination env.now file.originalname)))) = none →
        (putProfile env ⟨uid, fields, some file⟩ (start w)).1 =
          ⟨200, .withProfile "Profile updated successfully"
            (mergedProfile fields cur
              (.str (publicUrl w.bucketName (uploadDestination env.now file.originalname))))⟩ ∧
        findDoc (putProfile env ⟨uid, fields, some file⟩ (start w)).2.world.profiles uid =
          some (mergedProfile fields cur
            (.str (publicUrl w.bucketName (uploadDestination env.now file.originalname)))) ∧
        getField (mergedProfile fields cur
            (.str (publicUrl w.bucketName (uploadDestination env.now file.originalname))))
          "profilePicture" =
          .str (publicUrl w.bucketName (uploadDestination env.now file.originalname))) := by
  obtain ⟨url, hne, hurl⟩ := locator_of_model hmodel (storedRecord_some hcur).2 hpic
  refine ⟨url, hurl, ?_⟩
  rw [putProfile_replace hid hcur hurl hne]
  constructor
  · cases env.uploadRejects <;> cases env.unlinkThrows <;>
      simp [finishUpdate_trace, afterUpload, afterDelete, afterRead, start, St.log, Call.isMedia]
  · intro hup hul hset
    rw [hup, hul, if_neg Bool.false_ne_true, if_neg Bool.false_ne_true,
      finishUpdate_of_completes hset]
    exact ⟨rfl, findDoc_putDoc_same _ _ _, mergedProfile_profilePicture _ _ _⟩

/-- C6, amended, at a concrete request in which the remove rejects. -/
theorem update_with_file_removes_then_stores_witness :
    locatorsFollowModel sampleWorld = true ∧
    identityCheck { calm 9 with deleteRejects := true } (.str "u1") (start sampleWorld) ≠ none ∧
    storedRecord { calm 9 with deleteRejects := true } sampleWorld "u1" =
      .ok (some sampleRecord) ∧
    getField sampleRecord "profilePicture" ≠ .null ∧
    (putProfile { calm 9 with deleteRejects := true } ⟨"u1", [], some sampleFile⟩
      (start sampleWorld)).1.status = 200 ∧
    ∃ url, getField sampleRecord "profilePicture" = .str url ∧
      (putProfile { calm 9 with deleteRejects := true } ⟨"u1", [], some sampleFile⟩
        (start sampleWorld)).2.trace.filter Call.isMedia =
        [.fileDelete (oldObjectName url),
         .bucketUpload sampleFile.path
           (uploadDestination ({ calm 9 with deleteRejects := true } : Env).now
             sampleFile.originalname) sampleFile.mimetype] := by
  refine ⟨by decide, by decide, rfl, by decide, by decide, ?_⟩
  obtain ⟨url, hurl, hcalls, _⟩ :=
    update_with_file_removes_then_stores { calm 9 with deleteRejects := true } sampleWorld "u1"
      [] sampleRecord sampleFile (by decide) (by decide) rfl (by decide)
  exact ⟨url, hurl, hcalls⟩

/-- C9: in a repository whose media locators follow the data model (null or a
non-empty string, which Create and Update keep), when the existing record's
media locator is not null, the Update supplies a file and the store fails (the
upload rejects, or the release of the temporary file throws), the remove of the
old object has been attempted before the upload, the response is 500, no
repository write is made, and the repository is unchanged, so the record still
carries the old locator: nothing compensates for the removed object. -/
theorem failed_store_leaves_old_locator (env : Env) (w : World) (uid : String)
    (fields cur : Doc) (file : MulterFile)
    (hmodel : locatorsFollowModel w = true)
    (hid : identityCheck env (.str uid) (start w) ≠ none)
    (hcur : storedRecord env w uid = .ok (some cur))
    (hpic : getField cur "profilePicture" ≠ .null)
    (hfail : env.uploadRejects = true ∨ env.unlinkThrows = true) :
    (putProfile env ⟨uid, fields, some file⟩ (start w)).1.status = 500 ∧
    (∃ url, getField cur "profilePicture" = .str url ∧
      (putProfile env ⟨uid, fields, some file⟩ (start w)).2.trace =
        [.authGetUser (.str uid), .docGet uid, .fileDelete (oldObjectName url),
         .bucketUpload file.path (uploadDestination env.now file.originalname) file.mimetype] ++
        (if env.uploadRejects then [] else [.unlinkSync file.path])) ∧
    (∀ c ∈ (putProfile env ⟨uid, fields, some file⟩ (start w)).2.trace, c.isWrite = false) ∧
    (putProfile env ⟨uid, fields, some file⟩ (start w)).2.world.profiles = w.profiles ∧
    findDoc (putProfile env ⟨uid, fields, some file⟩ (start w)).2.world.profiles uid =
      some cur := by
  have hfind := (storedRecord_some hcur).2
  obtain ⟨url, hne, hurl⟩ := locator_of_model hmodel hfind hpic
  rw [putProfile_replace hid hcur hurl hne]
  cases hup : env.uploadRejects
  · have hul : env.unlinkThrows = true := by
      rcases hfail with h | h
      · rw [hup] at h; cases h
      · exact h
    simp only [hul, Bool.false_eq_true, if_false, if_true]
    refine ⟨by trivial, ⟨url, hurl, by trivial⟩, ?_, by trivial, hfind⟩
    intro c hc
    have hc' : c = .authGetUser (.str uid) ∨ c = .docGet uid ∨
        c = .fileDelete (oldObjectName url) ∨
        c = .bucketUpload file.path (uploadDestination env.now file.originalname)
          file.mimetype ∨ c = .unlinkSync file.path := by
      simpa [afterUpload, afterDelete, afterRead, start, St.log] using hc
    rcases hc' with rfl | rfl | rfl | rfl | rfl <;> rfl
  · simp only [if_true]
    refine ⟨by trivial, ⟨url, hurl, by trivial⟩, ?_, by trivial, hfind⟩
    intro c hc
    have hc' : c = .authGetUser (.str uid) ∨ c = .docGet uid ∨
        c = .fileDelete (oldObjectName url) ∨
        c = .bucketUpload file.path (uploadDestination env.now file.originalname)
          file.mimetype := by
      simpa [afterDelete, afterRead, start, St.log] using hc
    rcases hc' with rfl | rfl | rfl | rfl <;> rfl

/-- C9 at a concrete request: the upload rejects. -/
theorem failed_store_leaves_old_locator_witness :
    locatorsFollowModel sampleWorld = true ∧
    identityCheck (uploadDown 9) (.str "u1") (start sampleWorld) ≠ none ∧
    storedRecord (uploadDown 9) sampleWorld "u1" = .ok (some sampleRecord) ∧
    getField sampleRecord "profilePicture" ≠ .null ∧
    ((uploadDown 9).uploadRejects = true ∨ (uploadDown 9).unlinkThrows = true) ∧
    (putProfile (uploadDown 9) ⟨"u1", [], some sampleFile⟩ (start sampleWorld)).1.status = 500 ∧
    findDoc (putProfile (uploadDown 9) ⟨"u1", [], some sampleFile⟩
      (start sampleWorld)).2.world.profiles "u1" = some sampleRecord :=
  ⟨by decide, by decide, rfl, by decide, Or.inl rfl,
   (failed_store_leaves_old_locator (uploadDown 9) sampleWorld "u1" [] sampleRecord sampleFile
      (by decide) (by decide) rfl (by decide) (Or.inl rfl)).1,
   (failed_store_leaves_old_locator (uploadDown 9) sampleWorld "u1" [] sampleRecord sampleFile
      (by decide) (by decide) rfl (by decide) (Or.inl rfl)).2.2.2.2⟩

theorem keyedByUid_put {w w' : World} {id : String} {d : Doc}
    (hinv : keyedByUid w = true) (hd : getField d "uid" = .str id)
    (hw : w'.profiles = w.profiles ∨ w'.profiles = putDoc w.profiles id d) :
    keyedByUid w' = true := by
  rw [keyedByUid_iff] at hinv ⊢
  intro k x hmem
  rcases hw with hw | hw
  · rw [hw] at hmem
    exact hinv k x hmem
  · rw [hw] at hmem
    rcases mem_putDoc hmem with h | h
    · exact hinv k x h
    · cases h
      exact hd

/-- C8: the identifier of a record is immutable.  If every record of the
repository is stored under the key equal to its own uid field, this still holds
after any Create and after any Update, whatever their outcome.  Every write a
Create makes is under the key equal to the uid supplied in the body, of a record
with that uid; every write an Update makes is under the requested key, of a
record whose uid field is that of the existing record, whatever the body
holds. -/
theorem identifier_is_immutable (env : Env) (w : World) (create : PostRequest)
    (update : PutRequest) (hinv : keyedByUid w = true) :
    keyedByUid (postProfile env create (start w)).2.world = true ∧
    keyedByUid (putProfile env update (start w)).2.world = true ∧
    (∀ id d, Call.docSet id d ∈ (postProfile env create (start w)).2.trace →
      getField create.body "uid" = .str id ∧ getField d "uid" = .str id) ∧
    (∀ id d, Call.docSet id d ∈ (putProfile env update (start w)).2.trace →
      id = update.uid ∧
      ∃ cur, findDoc w.profiles update.uid = some cur ∧
        getField d "uid" = getField cur "uid" ∧ getField d "uid" = .str update.uid) := by
  refine ⟨?_, ?_, ?_, ?_⟩
  · rcases postProfile_effect env create w with ⟨hp, _⟩ | ⟨u, pic, hu, _, hp, _⟩
    · exact (keyedByUid_iff _).mpr (by rw [hp]; exact (keyedByUid_iff w).mp hinv)
    · exact keyedByUid_put hinv (by rw [newProfile_uid, hu]) hp
  · rcases putProfile_effect env update w with ⟨hp, _⟩ | ⟨cur, pic, hcur, _, hp, _⟩
    · exact (keyedByUid_iff _).mpr (by rw [hp]; exact (keyedByUid_iff w).mp hinv)
    · refine keyedByUid_put hinv ?_ hp
      rw [mergedProfile_uid]
      exact (keyedByUid_iff w).mp hinv _ _ (mem_of_findDoc hcur)
  · intro id d hmem
    rcases postProfile_effect env create w with ⟨_, hno⟩ | ⟨u, pic, hu, _, _, hwr⟩
    · have := hno _ hmem
      cases this
    · have h := hwr _ hmem rfl
      cases h
      exact ⟨hu, by rw [newProfile_uid, hu]⟩
  · intro id d hmem
    rcases putProfile_effect env update w with ⟨_, hno⟩ | ⟨cur, pic, hcur, _, _, hwr⟩
    · have := hno _ hmem
      cases this
    · have h := hwr _ hmem rfl
      cases h
      refine ⟨rfl, cur, hcur, mergedProfile_uid _ _ _, ?_⟩
      rw [mergedProfile_uid]
      exact (keyedByUid_iff w).mp hinv _ _ (mem_of_findDoc hcur)

/-- C8 at a concrete request: the body of the Update carries another uid, and
the record of `u1` keeps its own. -/
theorem identifier_is_immutable_witness :
    keyedByUid sampleWorld = true ∧
    keyedByUid (putProfile (calm 9)
      ⟨"u1", [("uid", .str "u2"), ("name", .str "B")], some sampleFile⟩
      (start sampleWorld)).2.world = true :=
  ⟨by decide,
   (identifier_is_immutable (calm 9) sampleWorld ⟨[("uid", .str "u2")], none⟩
      ⟨"u1", [("uid", .str "u2"), ("name", .str "B")], some sampleFile⟩ (by decide)).2.1⟩

/-! ## The storage key round trip -/

theorem splitChars_of_not_mem (sep : Char) (l : List Char) (h : sep ∉ l) :
    splitChars sep l = [l] := by
  induction l with
  | nil => rfl
  | cons c cs ih =>
    have hc : c ≠ sep := fun hc => h (hc ▸ List.mem_cons_self _ _)
    have hcs : sep ∉ cs := fun hm => h (List.mem_cons_of_mem _ hm)
    simp [splitChars, hc, ih hcs]

/-- Splitting at the separator a sequence whose last separator is followed by
`b` gives at least two segments, the last of which is `b`. -/
theorem splitChars_append (sep : Char) (a b : List Char) (hb : sep ∉ b) :
    ∃ first rest, splitChars sep (a ++ sep :: b) = first :: rest ∧ rest.getLast? = some b := by
  induction a with
  | nil =>
    refine ⟨[], [b], ?_, rfl⟩
    simp [splitChars, splitChars_of_not_mem sep b hb]
  | cons c cs ih =>
    obtain ⟨first, rest, hsplit, hlast⟩ := ih
    by_cases hc : c = sep
    · refine ⟨[], first :: rest, ?_, ?_⟩
      · simp [splitChars, hc, hsplit]
      · cases rest with
        | nil => simp at hlast
        | cons r rs => rw [List.getLast?_cons_cons]; exact hlast
    · refine ⟨c :: first, rest, ?_, hlast⟩
      simp [splitChars, hc, hsplit]

theorem jsPop_jsSplit_append (a b : List Char) (hb : '/' ∉ b) :
    jsPop (jsSplit (String.mk (a ++ '/' :: b)) '/') = some (String.mk b) := by
  obtain ⟨first, rest, hsplit, hlast⟩ := splitChars_append '/' a b hb
  unfold jsPop jsSplit
  simp only [hsplit, List.map_cons]
  cases rest with
  | nil => simp at hlast
  | cons r rs =>
    rw [List.map_cons, List.getLast?_cons_cons, ← List.map_cons, List.getLast?_map, hlast]
    rfl

/-- A sequence that contains the separator splits at its last occurrence. -/
theorem exists_last_sep (sep : Char) (l : List Char) (h : sep ∈ l) :
    ∃ u v, l = u ++ sep :: v ∧ sep ∉ v := by
  induction l with
  | nil => simp at h
  | cons c cs ih =>
    by_cases hcs : sep ∈ cs
    · obtain ⟨u, v, hl, hv⟩ := ih hcs
      exact ⟨c :: u, v, by rw [hl]; rfl, hv⟩
    · have hc : sep = c := by
        rcases List.mem_cons.mp h with h | h
        · exact h
        · exact absurd h hcs
      exact ⟨[], cs, by rw [hc]; rfl, hcs⟩

theorem digitChar_ne_slash (n : Nat) (h : n < 10) : Nat.digitChar n ≠ '/' := by
  interval_cases n <;> decide

theorem toDigitsCore_no_slash (fuel n : Nat) (ds : List Char) (hds : '/' ∉ ds) :
    '/' ∉ Nat.toDigitsCore 10 fuel n ds := by
  induction fuel generalizing n ds with
  | zero => simpa [Nat.toDigitsCore] using hds
  | succ fuel ih =>
    have hd : '/' ∉ Nat.digitChar (n % 10) :: ds := by
      intro hm
      rcases List.mem_cons.mp hm with h | h
      · exact digitChar_ne_slash (n % 10) (Nat.mod_lt _ (by decide)) h.symm
      · exact hds h
    unfold Nat.toDigitsCore
    simp only
    split_ifs
    · exact hd
    · exact ih _ _ hd

theorem toString_no_slash (n : Nat) : '/' ∉ (toString n).data := by
  show '/' ∉ (Nat.repr n).data
  unfold Nat.repr Nat.toDigits
  exact toDigitsCore_no_slash _ _ _ (by simp)

/-- C10: the key Update derives for removal from a locator returned by the
store equals the key under which the store uploaded the object exactly when the
original file name contains no slash; with a slash in the name, Update asks to
remove another key than the stored one. -/
theorem removal_key_round_trip (now : Nat) (bucketName originalname : String) :
    oldObjectName (publicUrl bucketName (uploadDestination now originalname)) =
        uploadDestination now originalname ↔
      '/' ∉ originalname.data := by
  constructor
  · intro heq
    intro hmem
    obtain ⟨u, v, hname, hv⟩ := exists_last_sep '/' originalname.data hmem
    have hurl : publicUrl bucketName (uploadDestination now originalname) =
        String.mk ((("https://storage.googleapis.com/" ++ bucketName ++ "/" ++
          "profile-pictures/" ++ toString now ++ "-").data ++ u) ++ '/' :: v) := by
      apply String.ext
      simp [publicUrl, uploadDestination, String.data_append, hname]
    rw [hurl, oldObjectName, jsPop_jsSplit_append _ _ hv] at heq
    have hlen := congrArg (fun s : String => s.data.length) heq
    simp [interpolate, uploadDestination, String.data_append, hname] at hlen
    omega
  · intro hno
    have hb : '/' ∉ (toString now).data ++ '-' :: originalname.data := by
      intro hm
      rcases List.mem_append.mp hm with h | h
      · exact toString_no_slash now h
      · rcases List.mem_cons.mp h with h | h
        · exact absurd h (by decide)
        · exact hno h
    have hurl : publicUrl bucketName (uploadDestination now originalname) =
        String.mk (("https://storage.googleapis.com/" ++ bucketName ++ "/" ++
          "profile-pictures").data ++ '/' :: ((toString now).data ++ '-' :: originalname.data)) := by
      apply String.ext
      simp [publicUrl, uploadDestination, String.data_append]
    rw [hurl, oldObjectName, jsPop_jsSplit_append _ _ hb]
    apply String.ext
    simp [interpolate, uploadDestination, String.data_append]

end CloudProfile
